import Mathlib

/-!
# Verification of the antigravity-claude-proxy account pool and upstream client

Shallow embedding of the JavaScript sources:
* `src/src/account-manager.js`   — the multi-account pool (`AccountManager`)
* `src/src/cloudcode-client.js`  — the upstream client (`sendMessage`, `parseResetTime`,
  `streamSSEResponse`)
* `src/src/format/request-converter.js` — `convertAnthropicToGoogle` (generation config)
* the Express server file (`src/unnamed/part_004`) — `parseError`, the `/v1/messages` handler

JavaScript numbers that the code compares with `if (x)` are modelled by `JNum`
(null / integer / NaN), so the truthiness of `0`, `null` and `NaN` is preserved.
Wall-clock instants (`Date.now()` values) are modelled as integers in milliseconds.
-/

/-- A JavaScript value that is either `null`, a number, or `NaN`.
`parseResetTime` in `cloudcode-client.js` returns exactly such values. -/
inductive JNum where
  | null : JNum
  | int (n : Int) : JNum
  | nan : JNum
deriving DecidableEq, Repr

/-- JavaScript truthiness of a `JNum`: `null`, `0` and `NaN` are falsy. -/
def JNum.truthy : JNum → Bool
  | .null => false
  | .int n => n ≠ 0
  | .nan => false

/-- Numeric value of a `JNum` (only meaningful when it holds an integer). -/
def JNum.val : JNum → Int
  | .null => 0
  | .int n => n
  | .nan => 0

/-! ## Account manager (`src/src/account-manager.js`) -/

/-- One account of the pool, with the fields of `account-manager.js` that the
rate-limit and selection logic reads or writes.  `rateLimitResetTime = none`
models the JavaScript `null`. -/
structure Account where
  email : String
  isRateLimited : Bool
  rateLimitResetTime : Option Int
  isInvalid : Bool
  invalidReason : Option String
  invalidAt : Option Int
  lastUsed : Option Int
deriving DecidableEq, Repr

/-- The pool settings object (`this.#settings`); only `cooldownDurationMs` is read
by the logic under verification. -/
structure PoolSettings where
  cooldownDurationMs : Option Int
deriving DecidableEq, Repr

/-- The mutable state of `AccountManager`: the account list, the round-robin
cursor and the settings. -/
structure ManagerState where
  accounts : List Account
  currentIndex : Nat
  settings : PoolSettings
deriving DecidableEq, Repr

/-- JavaScript truthiness of the `rateLimitResetTime` field:
`null` and `0` are falsy. -/
def timeTruthy : Option Int → Bool
  | some t => t ≠ 0
  | none => false

/-- One account's update inside `clearExpiredLimits` (lines 187-205):
`if (account.isRateLimited && account.rateLimitResetTime && account.rateLimitResetTime <= now)`
clears the flag and the reset time. -/
def clearExpiredAccount (now : Int) (a : Account) : Account :=
  match a.rateLimitResetTime with
  | some t =>
      if a.isRateLimited && t ≠ 0 && t ≤ now then
        { a with isRateLimited := false, rateLimitResetTime := none }
      else a
  | none => a

/-- `clearExpiredLimits()` applied to the whole pool. -/
def clearExpiredLimits (st : ManagerState) (now : Int) : ManagerState :=
  { st with accounts := st.accounts.map (clearExpiredAccount now) }

/-- `resetAllRateLimits()` (lines 211-220): blindly clears `isRateLimited` and
`rateLimitResetTime` on every account, expired or not ("optimistic retry"). -/
def resetAccount (a : Account) : Account :=
  { a with isRateLimited := false, rateLimitResetTime := none }

def resetAllRateLimits (st : ManagerState) : ManagerState :=
  { st with accounts := st.accounts.map resetAccount }

/-- The availability test used by `getAvailableAccounts` and the `pickNext` scan:
`!acc.isRateLimited && !acc.isInvalid`. -/
def availPred (a : Account) : Bool :=
  !a.isRateLimited && !a.isInvalid

/-- `getAvailableAccounts()` (lines 173-175). -/
def getAvailableAccounts (st : ManagerState) : List Account :=
  st.accounts.filter availPred

/-- `isAllRateLimited()` (lines 165-168): `true` for an empty pool, otherwise
every account must have `isRateLimited` set. -/
def isAllRateLimited (st : ManagerState) : Bool :=
  st.accounts.all (fun a => a.isRateLimited)

/-- The loop test of `pickNext` at offset `i` from the cursor:
`!account.isRateLimited && !account.isInvalid` for
`account = accounts[(currentIndex + i) % accounts.length]`. -/
def scanPred (accs : List Account) (cur : Nat) (i : Nat) : Bool :=
  match accs[(cur + i) % accs.length]? with
  | some a => availPred a
  | none => false

/-- `pickNext()` (lines 225-251): clear expired limits, return `null` if no
account is available, otherwise scan round-robin from `currentIndex`, stamp
`lastUsed` on the chosen account and advance the cursor past it. -/
def pickNext (st : ManagerState) (now : Int) : Option Account × ManagerState :=
  let st1 := clearExpiredLimits st now
  let accs := st1.accounts
  let n := accs.length
  if (accs.filter availPred).isEmpty then (none, st1)
  else
    match (List.range n).find? (scanPred accs st1.currentIndex) with
    | some i =>
        let idx := (st1.currentIndex + i) % n
        match accs[idx]? with
        | some a =>
            let a' := { a with lastUsed := some now }
            (some a', { st1 with accounts := accs.set idx a',
                                 currentIndex := (idx + 1) % n })
        | none => (none, st1)
    | none => (none, st1)

/-- The cooldown chosen by `markRateLimited`:
`resetMs || this.#settings.cooldownDurationMs || DEFAULT_COOLDOWN_MS`
(JavaScript `||` returns the first truthy operand). -/
def cooldownOf (dflt : Int) (s : PoolSettings) (resetMs : JNum) : Int :=
  if resetMs.truthy then resetMs.val
  else if timeTruthy s.cooldownDurationMs then s.cooldownDurationMs.getD 0
  else dflt

/-- Update the first element satisfying `p` (JavaScript `Array.prototype.find`
returns the first match and the code mutates that object in place). -/
def updFirst (p : Account → Bool) (f : Account → Account) : List Account → List Account
  | [] => []
  | a :: rest => if p a then f a :: rest else a :: updFirst p f rest

/-- `markRateLimited(email, resetMs)` (lines 256-269).  Returns the new state and
whether `saveToDisk()` was called.  An unknown email is an early `return`. -/
def markRateLimited (dflt : Int) (st : ManagerState) (email : String)
    (resetMs : JNum) (now : Int) : ManagerState × Bool :=
  match st.accounts.find? (fun a => a.email == email) with
  | none => (st, false)
  | some _ =>
      let cd := cooldownOf dflt st.settings resetMs
      let f : Account → Account := fun a =>
        { a with isRateLimited := true, rateLimitResetTime := some (now + cd) }
      let accs := updFirst (fun a => a.email == email) f st.accounts
      ({ st with accounts := accs }, true)

/-- `markInvalid(email, reason)` (lines 274-293).  Returns the new state and
whether `saveToDisk()` was called.  An unknown email is an early `return`. -/
def markInvalid (st : ManagerState) (email : String) (reason : String)
    (now : Int) : ManagerState × Bool :=
  match st.accounts.find? (fun a => a.email == email) with
  | none => (st, false)
  | some _ =>
      let f : Account → Account := fun a =>
        { a with isInvalid := true, invalidReason := some reason,
                 invalidAt := some now }
      let accs := updFirst (fun a => a.email == email) f st.accounts
      ({ st with accounts := accs }, true)

/-- `getMinWaitTimeMs()` (lines 298-320): `0` unless every account is
rate-limited; otherwise the smallest strictly positive `rateLimitResetTime - now`
over accounts with a truthy reset time, or `DEFAULT_COOLDOWN_MS` when none is
positive. -/
def getMinWaitTimeMs (st : ManagerState) (now : Int) (dflt : Int) : Int :=
  if isAllRateLimited st = false then 0
  else
    let waits := st.accounts.filterMap (fun a =>
      match a.rateLimitResetTime with
      | some t => if t ≠ 0 ∧ 0 < t - now then some (t - now) else none
      | none => none)
    match waits.min? with
    | some w => w
    | none => dflt

/-! ## Upstream client: the all-rate-limited gate
(`src/src/cloudcode-client.js`, `sendMessage` lines 242-277) -/

/-- The ceiling hardcoded at `if (waitMs > 120000)` in `sendMessage` and
`sendMessageStream`. -/
def maxWaitBeforeErrorMs : Int := 120000

/-- Outcome of the start of one `sendMessage` attempt: either an account is
picked, or the all-rate-limited policy fires.  `capacityFail` is the immediate
`RESOURCE_EXHAUSTED` throw for waits above the ceiling (its message renders the
wait and the absolute reset time `now + wait`); `allExhaustedFail` is the
multi-account `RESOURCE_EXHAUSTED` throw; `sleepThenRetry` is the single-account
path that sleeps `waitMs` and then re-picks; `noAccountsFail` is the
`'No accounts available'` throw. -/
inductive AttemptGate where
  | proceed (acc : Account) (st' : ManagerState)
  | capacityFail (waitMs resetAt : Int)
  | allExhaustedFail (count : Nat) (waitMs resetAt : Int)
  | sleepThenRetry (waitMs : Int)
  | noAccountsFail
deriving DecidableEq, Repr

/-- Lines 244-277 of `sendMessage` (identical in `sendMessageStream`):
pick an account; when none, apply the all-rate-limited policy. -/
def sendMessageAttemptGate (st : ManagerState) (now dflt : Int) : AttemptGate :=
  match pickNext st now with
  | (some a, st') => .proceed a st'
  | (none, st') =>
      if isAllRateLimited st' then
        let w := getMinWaitTimeMs st' now dflt
        if maxWaitBeforeErrorMs < w then .capacityFail w (now + w)
        else if st'.accounts.length = 1 then .sleepThenRetry w
        else .allExhaustedFail st'.accounts.length w (now + w)
      else .noAccountsFail

/-! ## Availability: the spec-side predicate and well-formed states -/

/-- The spec's definition of availability, for comparison with the code: "An
account is available for model M iff it is enabled, not invalid, and its
`(email, M)` rate-limit state is either absent or has a `resetAt` in the past."
The implementation keeps a single rate-limit state per account (shared by every
model) and has no disabled flag, so the condition reads: not invalid, and either
not rate-limited or the recorded reset time has passed. -/
def specAvailableForModel (now : Int) (a : Account) : Bool :=
  !a.isInvalid && (!a.isRateLimited ||
    (match a.rateLimitResetTime with
     | some t => decide (t ≤ now)
     | none => false))

/-- Well-formedness of a pool state: every recorded reset time is a positive
timestamp.  `markRateLimited` always stores `Date.now() + cooldown` with a
positive cooldown, and the config loader normalises falsy stored values to
`null`, so every state the program constructs satisfies this. -/
def wfState (st : ManagerState) : Bool :=
  st.accounts.all (fun a =>
    match a.rateLimitResetTime with
    | some t => decide (0 < t)
    | none => true)

lemma avail_clearExpired (now : Int) (a : Account)
    (hwf : ∀ t, a.rateLimitResetTime = some t → 0 < t) :
    availPred (clearExpiredAccount now a) = specAvailableForModel now a := by
  unfold availPred clearExpiredAccount specAvailableForModel
  match h : a.rateLimitResetTime with
  | none =>
      cases hrl : a.isRateLimited <;> simp
  | some t =>
      have ht : 0 < t := hwf t h
      have htz : (t ≠ 0) = True := by simp [ht.ne']
      cases hrl : a.isRateLimited <;> by_cases hle : t ≤ now <;>
        simp [hrl, hle, htz, ht.ne']

lemma exists_shift (cur : Nat) {n j : Nat} (hn : 0 < n) (hj : j < n) :
    ∃ i, i < n ∧ (cur + i) % n = j := by
  obtain ⟨q, r, hr, rfl⟩ : ∃ q r, r < n ∧ cur = n * q + r :=
    ⟨cur / n, cur % n, Nat.mod_lt _ hn, (Nat.div_add_mod cur n).symm⟩
  rcases le_or_lt r j with h | h
  · refine ⟨j - r, by omega, ?_⟩
    have he : n * q + r + (j - r) = n * q + j := by
      have hA : ∃ A, n * q = A := ⟨_, rfl⟩
      obtain ⟨A, hA⟩ := hA
      rw [hA]; omega
    rw [he, Nat.mul_add_mod]
    exact Nat.mod_eq_of_lt hj
  · refine ⟨j + n - r, by omega, ?_⟩
    have he : n * q + r + (j + n - r) = n * (q + 1) + j := by
      have h2 : n * (q + 1) = n * q + n := by ring
      have hA : ∃ A, n * q = A := ⟨_, rfl⟩
      obtain ⟨A, hA⟩ := hA
      rw [h2, hA]; omega
    rw [he, Nat.mul_add_mod]
    exact Nat.mod_eq_of_lt hj

lemma pickNext_spec (st : ManagerState) (now : Int) :
    ((pickNext st now).1 = none →
      ∀ a ∈ (clearExpiredLimits st now).accounts, availPred a = false) ∧
    (∀ acc, (pickNext st now).1 = some acc → availPred acc = true) := by
  unfold pickNext
  set st1 := clearExpiredLimits st now with hst1
  set accs := st1.accounts with haccs
  by_cases hem : (accs.filter availPred).isEmpty
  · constructor
    · intro _ a ha
      have h0 : accs.filter availPred = [] := List.isEmpty_iff.mp hem
      have := List.filter_eq_nil_iff.mp h0 a ha
      simpa using this
    · intro acc hacc
      simp [hem] at hacc
  · have hne : ∃ x ∈ accs, availPred x = true := by
      by_contra hcon
      push_neg at hcon
      have h0 : accs.filter availPred = [] := by
        apply List.filter_eq_nil_iff.mpr
        intro a ha
        simp [hcon a ha]
      simp [h0] at hem
    obtain ⟨x, hx, hpx⟩ := hne
    obtain ⟨j, hj, hxj⟩ := List.mem_iff_getElem.mp hx
    have hn : 0 < accs.length := by omega
    obtain ⟨i, hi, hmod⟩ := exists_shift st1.currentIndex hn hj
    have hpred : scanPred accs st1.currentIndex i = true := by
      unfold scanPred
      rw [hmod, List.getElem?_eq_getElem hj, hxj]
      exact hpx
    have hsome : ((List.range accs.length).find?
        (scanPred accs st1.currentIndex)).isSome := by
      rw [List.find?_isSome]
      exact ⟨i, List.mem_range.mpr hi, hpred⟩
    match hfind : (List.range accs.length).find? (scanPred accs st1.currentIndex) with
    | none => rw [hfind] at hsome; simp at hsome
    | some k =>
        have hk : scanPred accs st1.currentIndex k = true := List.find?_some hfind
        unfold scanPred at hk
        match hget : accs[(st1.currentIndex + k) % accs.length]? with
        | none => rw [hget] at hk; simp at hk
        | some a =>
            rw [hget] at hk
            constructor
            · intro hnone
              simp [hem, hfind, hget] at hnone
            · intro acc hacc
              simp [hem, hfind, hget] at hacc
              rw [← hacc]
              simpa [availPred] using hk

lemma wf_resetTime (st : ManagerState) (hwf : wfState st = true) :
    ∀ a ∈ st.accounts, ∀ t, a.rateLimitResetTime = some t → 0 < t := by
  intro a ha t ht
  have h := List.all_eq_true.mp hwf a ha
  simp only [ht] at h
  simpa using h

/-- C1: for every well-formed pool state and requested model, if at least one
account is available in the spec's sense (not invalid, and not rate-limited for
the model — the implementation's rate-limit state is per-account, identical for
every model, and there is no disabled flag), then `pickNext` returns some
account that is not rate-limited and not invalid; and it returns `null` only
when no such account exists. -/
theorem pickNext_availability (st : ManagerState) (now : Int)
    (hwf : wfState st = true) :
    ((∃ a ∈ st.accounts, specAvailableForModel now a = true) →
       ∃ acc, (pickNext st now).1 = some acc ∧
         acc.isRateLimited = false ∧ acc.isInvalid = false) ∧
    ((pickNext st now).1 = none →
       ∀ a ∈ st.accounts, specAvailableForModel now a = false) := by
  have hwf' := wf_resetTime st hwf
  have hmap : (clearExpiredLimits st now).accounts
      = st.accounts.map (clearExpiredAccount now) := rfl
  constructor
  · rintro ⟨a, ha, hav⟩
    match hpick : (pickNext st now).1 with
    | some acc =>
        have hp := (pickNext_spec st now).2 acc hpick
        simp only [availPred, Bool.and_eq_true, Bool.not_eq_true'] at hp
        exact ⟨acc, rfl, hp.1, hp.2⟩
    | none =>
        exfalso
        have hall := (pickNext_spec st now).1 hpick (clearExpiredAccount now a)
          (by rw [hmap]; exact List.mem_map_of_mem _ ha)
        rw [avail_clearExpired now a (hwf' a ha), hav] at hall
        exact Bool.true_eq_false.mp hall
  · intro hnone a ha
    have hall := (pickNext_spec st now).1 hnone (clearExpiredAccount now a)
      (by rw [hmap]; exact List.mem_map_of_mem _ ha)
    rw [avail_clearExpired now a (hwf' a ha)] at hall
    exact hall

/-- Witness for C1 at a concrete two-account pool: the second account is
available, so `pickNext` returns an available account. -/
theorem pickNext_availability_witness :
    wfState ⟨[⟨"a@x", true, some 99, false, none, none, none⟩,
              ⟨"b@x", false, none, false, none, none, none⟩], 0, ⟨none⟩⟩ = true ∧
    ∃ acc, (pickNext ⟨[⟨"a@x", true, some 99, false, none, none, none⟩,
              ⟨"b@x", false, none, false, none, none, none⟩], 0, ⟨none⟩⟩ 50).1
        = some acc ∧ acc.isRateLimited = false ∧ acc.isInvalid = false :=
  ⟨by decide,
   (pickNext_availability ⟨[⟨"a@x", true, some 99, false, none, none, none⟩,
        ⟨"b@x", false, none, false, none, none, none⟩], 0, ⟨none⟩⟩ 50
      (by decide)).1
     ⟨⟨"b@x", false, none, false, none, none, none⟩, by decide, by decide⟩⟩

/-- Counterexample to C4.  The `/v1/messages` handler (server file, line 195)
calls `resetAllRateLimits()` — not a clear of expired entries only — at the
start of every request.  Here the single account is rate-limited with
`rateLimitResetTime = 2000000`, still in the future at `now = 1000000`, yet
after the request-start reset the very first selection returns it. -/
theorem requestStart_reset_counterexample :
    (1000000 : Int) < 2000000 ∧
    (pickNext (resetAllRateLimits
        ⟨[⟨"a@x", true, some 2000000, false, none, none, none⟩], 0, ⟨none⟩⟩)
        1000000).1
      = some ⟨"a@x", false, none, false, none, none, some 1000000⟩ := by
  decide

/-- C4 (amended): at the start of handling each client request the server calls
`resetAllRateLimits`, which clears the rate-limit state of every account
regardless of expiry, so even an account whose `rateLimitResetTime` is still in
the future becomes available at the request's first selection; an account whose
reset time has passed likewise becomes available (also via `clearExpiredLimits`
inside `pickNext`). -/
theorem resetAllRateLimits_clears_all (st : ManagerState) :
    ∀ a ∈ (resetAllRateLimits st).accounts,
      a.isRateLimited = false ∧ a.rateLimitResetTime = none := by
  intro a ha
  simp only [resetAllRateLimits, List.mem_map] at ha
  obtain ⟨b, _, hba⟩ := ha
  rw [← hba]
  exact ⟨rfl, rfl⟩

/-- Witness for the amended C4 at a concrete rate-limited account: after the
request-start reset, the (cleared) account in the pool has its rate-limit
state wiped. -/
theorem resetAllRateLimits_clears_all_witness :
    (⟨"a@x", false, none, false, none, none, none⟩ : Account).isRateLimited = false ∧
    (⟨"a@x", false, none, false, none, none, none⟩ : Account).rateLimitResetTime = none :=
  resetAllRateLimits_clears_all
    ⟨[⟨"a@x", true, some 2000000, false, none, none, none⟩], 0, ⟨none⟩⟩
    ⟨"a@x", false, none, false, none, none, none⟩ (by decide)

/-- C10: `markRateLimited` and `markInvalid` with an email that matches no
account leave the state unchanged and do not call `saveToDisk`. -/
theorem mark_unknown_email_noop (dflt : Int) (st : ManagerState) (email : String)
    (resetMs : JNum) (reason : String) (now : Int)
    (h : ∀ a ∈ st.accounts, (a.email == email) = false) :
    markRateLimited dflt st email resetMs now = (st, false) ∧
    markInvalid st email reason now = (st, false) := by
  have hf : st.accounts.find? (fun a => a.email == email) = none := by
    apply List.find?_eq_none.mpr
    intro a ha
    simp [h a ha]
  constructor
  · simp [markRateLimited, hf]
  · simp [markInvalid, hf]

/-- Witness for C10: a one-account pool and an unknown email. -/
theorem mark_unknown_email_noop_witness :
    markRateLimited 10000 ⟨[⟨"a@x", false, none, false, none, none, none⟩], 0, ⟨none⟩⟩
        "zz@y" (.int 5000) 777
      = (⟨[⟨"a@x", false, none, false, none, none, none⟩], 0, ⟨none⟩⟩, false) ∧
    markInvalid ⟨[⟨"a@x", false, none, false, none, none, none⟩], 0, ⟨none⟩⟩
        "zz@y" "bad" 777
      = (⟨[⟨"a@x", false, none, false, none, none, none⟩], 0, ⟨none⟩⟩, false) :=
  mark_unknown_email_noop 10000
    ⟨[⟨"a@x", false, none, false, none, none, none⟩], 0, ⟨none⟩⟩
    "zz@y" (.int 5000) "bad" 777 (by decide)

/-- Counterexample to C2.  `markRateLimited` has no dedup window: marking the
same account again 1000 ms after a first mark (well inside the spec's ~5 s
window), with the same 5000 ms cooldown, moves `rateLimitResetTime` from 6000
to 7000 — beyond the value set by the first mark. -/
theorem markRateLimited_dedup_counterexample :
    ((markRateLimited 10000
        ⟨[⟨"a@x", false, none, false, none, none, none⟩], 0, ⟨none⟩⟩
        "a@x" (.int 5000) 1000).1.accounts.map (fun a => a.rateLimitResetTime))
      = [some 6000] ∧
    ((markRateLimited 10000 (markRateLimited 10000
        ⟨[⟨"a@x", false, none, false, none, none, none⟩], 0, ⟨none⟩⟩
        "a@x" (.int 5000) 1000).1
        "a@x" (.int 5000) 2000).1.accounts.map (fun a => a.rateLimitResetTime))
      = [some 7000] ∧
    (2000 : Int) - 1000 < 5000 ∧ (6000 : Int) < 7000 := by
  decide

lemma find?_updFirst (p : Account → Bool) (f : Account → Account)
    (hf : ∀ x, p (f x) = p x) :
    ∀ l : List Account, (updFirst p f l).find? p = (l.find? p).map f := by
  intro l
  induction l with
  | nil => simp [updFirst]
  | cons a rest ih =>
      by_cases hpa : p a = true
      · rw [updFirst, if_pos hpa, List.find?_cons_of_pos _ ((hf a).trans hpa),
            List.find?_cons_of_pos _ hpa]
        rfl
      · rw [updFirst, if_neg hpa,
            List.find?_cons_of_neg _ hpa, List.find?_cons_of_neg _ hpa, ih]

/-- C2 (amended): `markRateLimited` applies no dedup window; every call on a
known email unconditionally overwrites the account's `rateLimitResetTime` to
the call's `now + cooldown` (cooldown = `resetMs || settings.cooldownDurationMs
|| DEFAULT_COOLDOWN_MS`), independent of any earlier mark — so a repeated mark
at a later time extends `resetAt` beyond the first mark's value. -/
theorem markRateLimited_overwrites_reset (dflt : Int) (st : ManagerState)
    (email : String) (r : JNum) (now : Int) (a : Account)
    (h : st.accounts.find? (fun x => x.email == email) = some a) :
    (markRateLimited dflt st email r now).1.accounts.find? (fun x => x.email == email)
      = some { a with isRateLimited := true,
                      rateLimitResetTime := some (now + cooldownOf dflt st.settings r) } := by
  unfold markRateLimited
  rw [h]
  simp only
  have hu := find?_updFirst (fun x => x.email == email)
    (fun a => { a with isRateLimited := true,
                       rateLimitResetTime := some (now + cooldownOf dflt st.settings r) })
    (fun _ => rfl) st.accounts
  rw [hu, h, Option.map_some']

/-- Witness for the amended C2: the concrete second mark of the counterexample
scenario lands at `resetAt = 2000 + 5000`. -/
theorem markRateLimited_overwrites_reset_witness :
    ((markRateLimited 10000 (markRateLimited 10000
        ⟨[⟨"a@x", false, none, false, none, none, none⟩], 0, ⟨none⟩⟩
        "a@x" (.int 5000) 1000).1
        "a@x" (.int 5000) 2000).1.accounts.find? (fun x => x.email == "a@x"))
      = some ⟨"a@x", true, some 7000, false, none, none, none⟩ :=
  markRateLimited_overwrites_reset 10000
    (markRateLimited 10000
      ⟨[⟨"a@x", false, none, false, none, none, none⟩], 0, ⟨none⟩⟩
      "a@x" (.int 5000) 1000).1
    "a@x" (.int 5000) 2000
    ⟨"a@x", true, some 6000, false, none, none, none⟩ (by decide)

lemma map_eq_self_of_eq {l : List Account} {f : Account → Account}
    (h : ∀ a ∈ l, f a = a) : l.map f = l := by
  induction l with
  | nil => rfl
  | cons a rest ih =>
      rw [List.map_cons, h a (List.mem_cons_self a rest),
          ih (fun b hb => h b (List.mem_cons_of_mem a hb))]

lemma foldl_min_spec (xs : List Int) : ∀ a : Int,
    (xs.foldl min a = a ∨ xs.foldl min a ∈ xs) ∧
    xs.foldl min a ≤ a ∧ ∀ b ∈ xs, xs.foldl min a ≤ b := by
  induction xs with
  | nil => intro a; simp
  | cons x xs ih =>
      intro a
      simp only [List.foldl_cons]
      obtain ⟨hmem, hle, hrest⟩ := ih (min a x)
      refine ⟨?_, le_trans hle (min_le_left a x), ?_⟩
      · rcases hmem with h | h
        · rcases min_choice a x with hc | hc
          · left; rw [h, hc]
          · right; rw [h, hc]; exact List.mem_cons_self x xs
        · right; exact List.mem_cons_of_mem x h
      · intro b hb
        rcases List.mem_cons.mp hb with rfl | hb'
        · exact le_trans hle (min_le_right a b)
        · exact hrest b hb'

lemma int_min?_spec (l : List Int) (w : Int) (h : l.min? = some w) :
    w ∈ l ∧ ∀ b ∈ l, w ≤ b := by
  match l with
  | [] => simp [List.min?] at h
  | x :: xs =>
      simp only [List.min?, Option.some.injEq] at h
      obtain ⟨hmem, hle, hrest⟩ := foldl_min_spec xs x
      subst h
      constructor
      · rcases hmem with h | h
        · rw [h]; exact List.mem_cons_self x xs
        · exact List.mem_cons_of_mem x h
      · intro b hb
        rcases List.mem_cons.mp hb with rfl | hb'
        · exact hle
        · exact hrest b hb'

lemma clearExpired_id_of_future (st : ManagerState) (now : Int)
    (hall : ∀ a ∈ st.accounts, ∀ t, a.rateLimitResetTime = some t → now < t) :
    clearExpiredLimits st now = st := by
  unfold clearExpiredLimits
  have hm : st.accounts.map (clearExpiredAccount now) = st.accounts := by
    apply map_eq_self_of_eq
    intro a ha
    unfold clearExpiredAccount
    match hrt : a.rateLimitResetTime with
    | none => rfl
    | some t =>
        have hlt : now < t := hall a ha t hrt
        have : ¬ (t ≤ now) := not_le.mpr hlt
        simp [this]
  rw [hm]

lemma pickNext_of_allRateLimited (st : ManagerState) (now : Int)
    (hclear : clearExpiredLimits st now = st)
    (hall : ∀ a ∈ st.accounts, a.isRateLimited = true) :
    pickNext st now = (none, st) := by
  unfold pickNext
  rw [hclear]
  have hfe : st.accounts.filter availPred = [] := by
    apply List.filter_eq_nil_iff.mpr
    intro a ha
    simp [availPred, hall a ha]
  simp [hfe]

/-- C3: when every account is rate-limited with a reset time still in the
future, the attempt gate of `sendMessage` behaves as the all-rate-limited
policy: a minimum wait above the 120000 ms ceiling raises an immediate
`RESOURCE_EXHAUSTED` capacity error carrying the wait and the absolute reset
instant (no sleep); within the ceiling, a single-account pool sleeps for the
minimum wait and retries while a multi-account pool fails fast with the
capacity error.  Moreover `getMinWaitTimeMs` is exactly the minimum of
`resetAt - now` over the accounts. -/
theorem allRateLimited_policy (st : ManagerState) (now dflt : Int)
    (hnow : 0 ≤ now)
    (hall : ∀ a ∈ st.accounts, a.isRateLimited = true ∧
      ∃ t, a.rateLimitResetTime = some t ∧ now < t) :
    (maxWaitBeforeErrorMs < getMinWaitTimeMs st now dflt →
      sendMessageAttemptGate st now dflt
        = .capacityFail (getMinWaitTimeMs st now dflt)
            (now + getMinWaitTimeMs st now dflt)) ∧
    (getMinWaitTimeMs st now dflt ≤ maxWaitBeforeErrorMs →
      st.accounts.length = 1 →
      sendMessageAttemptGate st now dflt
        = .sleepThenRetry (getMinWaitTimeMs st now dflt)) ∧
    (getMinWaitTimeMs st now dflt ≤ maxWaitBeforeErrorMs →
      st.accounts.length ≠ 1 →
      sendMessageAttemptGate st now dflt
        = .allExhaustedFail st.accounts.length (getMinWaitTimeMs st now dflt)
            (now + getMinWaitTimeMs st now dflt)) ∧
    (∀ a ∈ st.accounts, ∀ t, a.rateLimitResetTime = some t →
      getMinWaitTimeMs st now dflt ≤ t - now) ∧
    (st.accounts ≠ [] → ∃ a ∈ st.accounts, ∃ t,
      a.rateLimitResetTime = some t ∧ getMinWaitTimeMs st now dflt = t - now) := by
  have hclear : clearExpiredLimits st now = st := by
    apply clearExpired_id_of_future
    intro a ha t hrt
    obtain ⟨_, t', hrt', hlt'⟩ := hall a ha
    rw [hrt] at hrt'
    injection hrt' with h
    rw [h]; exact hlt'
  have hrl : ∀ a ∈ st.accounts, a.isRateLimited = true := fun a ha => (hall a ha).1
  have hpick : pickNext st now = (none, st) :=
    pickNext_of_allRateLimited st now hclear hrl
  have hallb : isAllRateLimited st = true :=
    List.all_eq_true.mpr (fun a ha => by simp [hrl a ha])
  have hgate : sendMessageAttemptGate st now dflt
      = (if maxWaitBeforeErrorMs < getMinWaitTimeMs st now dflt then
          AttemptGate.capacityFail (getMinWaitTimeMs st now dflt)
            (now + getMinWaitTimeMs st now dflt)
        else if st.accounts.length = 1 then
          AttemptGate.sleepThenRetry (getMinWaitTimeMs st now dflt)
        else AttemptGate.allExhaustedFail st.accounts.length
            (getMinWaitTimeMs st now dflt)
            (now + getMinWaitTimeMs st now dflt)) := by
    unfold sendMessageAttemptGate
    rw [hpick]
    simp [hallb]
  -- the filterMap of candidate waits
  have hwaits : ∀ a ∈ st.accounts, ∀ t, a.rateLimitResetTime = some t →
      (t - now) ∈ st.accounts.filterMap (fun a =>
        match a.rateLimitResetTime with
        | some t => if t ≠ 0 ∧ 0 < t - now then some (t - now) else none
        | none => none) := by
    intro a ha t hrt
    apply List.mem_filterMap.mpr
    refine ⟨a, ha, ?_⟩
    obtain ⟨_, t', hrt', hlt'⟩ := hall a ha
    rw [hrt] at hrt'
    injection hrt' with h
    subst h
    have h1 : t ≠ 0 := by omega
    have h2 : 0 < t - now := by omega
    simp [hrt, h1, h2]
  have hmin : getMinWaitTimeMs st now dflt
      = (match (st.accounts.filterMap (fun a =>
          match a.rateLimitResetTime with
          | some t => if t ≠ 0 ∧ 0 < t - now then some (t - now) else none
          | none => none)).min? with
        | some w => w
        | none => dflt) := by
    unfold getMinWaitTimeMs
    simp [hallb]
  refine ⟨fun h1 => by rw [hgate, if_pos h1],
          fun h1 h2 => by rw [hgate, if_neg (not_lt.mpr h1), if_pos h2],
          fun h1 h2 => by rw [hgate, if_neg (not_lt.mpr h1), if_neg h2],
          ?_, ?_⟩
  · intro a ha t hrt
    have hmem := hwaits a ha t hrt
    match hm : (st.accounts.filterMap (fun a =>
        match a.rateLimitResetTime with
        | some t => if t ≠ 0 ∧ 0 < t - now then some (t - now) else none
        | none => none)).min? with
    | none =>
        rw [List.min?_eq_none_iff] at hm
        rw [hm] at hmem
        simp at hmem
    | some w =>
        have hs := int_min?_spec _ w hm
        rw [hmin, hm]
        exact hs.2 _ hmem
  · intro hne
    obtain ⟨a, ha⟩ := List.exists_mem_of_ne_nil st.accounts hne
    obtain ⟨_, t, hrt, _⟩ := hall a ha
    have hmem := hwaits a ha t hrt
    match hm : (st.accounts.filterMap (fun a =>
        match a.rateLimitResetTime with
        | some t => if t ≠ 0 ∧ 0 < t - now then some (t - now) else none
        | none => none)).min? with
    | none =>
        rw [List.min?_eq_none_iff] at hm
        rw [hm] at hmem
        simp at hmem
    | some w =>
        have hs := int_min?_spec _ w hm
        obtain ⟨b, hb, hfb⟩ := List.mem_filterMap.mp hs.1
        refine ⟨b, hb, ?_⟩
        match hbt : b.rateLimitResetTime with
        | none => rw [hbt] at hfb; simp at hfb
        | some tb =>
            rw [hbt] at hfb
            have hfb' : (if tb ≠ 0 ∧ 0 < tb - now
                then some (tb - now) else none) = some w := hfb
            by_cases hc : tb ≠ 0 ∧ 0 < tb - now
            · rw [if_pos hc] at hfb'
              injection hfb' with hfb'
              exact ⟨tb, rfl, by rw [hmin, hm, ← hfb']⟩
            · rw [if_neg hc] at hfb'
              exact absurd hfb' (by simp)

/-- Witness for C3 at concrete pools: a single over-ceiling account fails fast
with the capacity error; a single within-ceiling account sleeps; two
within-ceiling accounts fail fast with the all-exhausted error. -/
theorem allRateLimited_policy_witness :
    sendMessageAttemptGate
        ⟨[⟨"a@x", true, some 180001, false, none, none, none⟩], 0, ⟨none⟩⟩ 0 10000
      = .capacityFail 180001 180001 ∧
    sendMessageAttemptGate
        ⟨[⟨"a@x", true, some 90000, false, none, none, none⟩], 0, ⟨none⟩⟩ 0 10000
      = .sleepThenRetry 90000 ∧
    sendMessageAttemptGate
        ⟨[⟨"a@x", true, some 90000, false, none, none, none⟩,
          ⟨"b@x", true, some 95000, false, none, none, none⟩], 0, ⟨none⟩⟩ 0 10000
      = .allExhaustedFail 2 90000 90000 := by
  refine ⟨?_, ?_, ?_⟩
  · exact (allRateLimited_policy
      ⟨[⟨"a@x", true, some 180001, false, none, none, none⟩], 0, ⟨none⟩⟩ 0 10000
      (by decide)
      (by intro a ha; simp at ha; subst ha; exact ⟨rfl, 180001, rfl, by decide⟩)).1
      (by decide)
  · exact (allRateLimited_policy
      ⟨[⟨"a@x", true, some 90000, false, none, none, none⟩], 0, ⟨none⟩⟩ 0 10000
      (by decide)
      (by intro a ha; simp at ha; subst ha; exact ⟨rfl, 90000, rfl, by decide⟩)).2.1
      (by decide) (by decide)
  · exact (allRateLimited_policy
      ⟨[⟨"a@x", true, some 90000, false, none, none, none⟩,
        ⟨"b@x", true, some 95000, false, none, none, none⟩], 0, ⟨none⟩⟩ 0 10000
      (by decide)
      (by intro a ha; simp at ha
          rcases ha with h | h <;> subst h
          · exact ⟨rfl, 90000, rfl, by decide⟩
          · exact ⟨rfl, 95000, rfl, by decide⟩)).2.2.1
      (by decide) (by decide)

/-! ## Request converter: generation config
(`src/src/format/request-converter.js`, `convertAnthropicToGoogle`) -/

/-- Greater-than used by the Gemini cap check
`generationConfig.maxOutputTokens > GEMINI_MAX_OUTPUT_TOKENS`: an absent value
(`undefined`, modelled by `null` here) and `NaN` compare `false`. -/
def JNum.gtInt (x : JNum) (cap : Int) : Bool :=
  match x with
  | .int n => cap < n
  | _ => false

/-- The `maxOutputTokens` field of the generated `generationConfig`
(request-converter.js lines 136-137, 153-191 and 231-234).  `isClaude`,
`isGemini`, `isThinking` are the classifications produced by the `constants.js`
helpers `getModelFamily` / `isThinkingModel` (that file is not part of the
sources, so they are parameters), and `geminiCap` is its constant
`GEMINI_MAX_OUTPUT_TOKENS`.  `maxTokens` is `anthropicRequest.max_tokens`,
`budget` is `thinking?.budget_tokens`; both keep JavaScript truthiness
(`if (max_tokens)`, `if (thinkingBudget)` skip `0`, `null`/`undefined`, `NaN`).
`.null` models an absent field. -/
def maxOutputTokensOf (isClaude isGemini isThinking : Bool)
    (geminiCap : Int) (maxTokens budget : JNum) : JNum :=
  let cur : JNum := if maxTokens.truthy then maxTokens else .null
  let cur : JNum :=
    if isThinking && isClaude then
      if budget.truthy then
        if cur.truthy && decide (cur.val ≤ budget.val) then .int (budget.val + 8192)
        else cur
      else cur
    else cur
  if isGemini && cur.gtInt geminiCap then .int geminiCap else cur

/-- Counterexample to C8.  For a Claude thinking model with
`thinking.budget_tokens = 1000` and `max_tokens = 4096` the budget is set and
`budget ≤ max_tokens`, so the claim requires `maxOutputTokens = 1000 + 8192 =
9192`; the code only bumps when `max_tokens ≤ budget` and leaves 4096
unchanged. -/
theorem thinking_budget_counterexample :
    (1000 : Int) ≤ 4096 ∧
    maxOutputTokensOf true false true 0 (.int 4096) (.int 1000) = .int 4096 ∧
    JNum.int 4096 ≠ .int (1000 + 8192) := by
  decide

/-- C8 (amended): for Claude thinking models, if a thinking budget is set and
`max_tokens ≤ budget` then `maxOutputTokens` is raised to `budget + 8192`;
otherwise (budget below `max_tokens`, or no budget) `max_tokens` is passed
through unchanged. -/
theorem thinking_budget_adjustment (cap m b : Int) (hm : m ≠ 0) (hb : b ≠ 0) :
    (m ≤ b →
      maxOutputTokensOf true false true cap (.int m) (.int b) = .int (b + 8192)) ∧
    (b < m →
      maxOutputTokensOf true false true cap (.int m) (.int b) = .int m) ∧
    maxOutputTokensOf true false true cap (.int m) .null = .int m := by
  refine ⟨?_, ?_, ?_⟩
  · intro h
    simp [maxOutputTokensOf, JNum.truthy, JNum.val, JNum.gtInt, hm, hb, h]
  · intro h
    simp [maxOutputTokensOf, JNum.truthy, JNum.val, JNum.gtInt, hm, hb, not_le.mpr h]
  · simp [maxOutputTokensOf, JNum.truthy, JNum.val, JNum.gtInt, hm]

/-- Witness for the amended C8: budget 16000 with `max_tokens` 8192 is raised to
24192; budget 1000 with `max_tokens` 4096 passes 4096 through; no budget passes
4096 through. -/
theorem thinking_budget_adjustment_witness :
    maxOutputTokensOf true false true 0 (.int 8192) (.int 16000) = .int (16000 + 8192) ∧
    maxOutputTokensOf true false true 0 (.int 4096) (.int 1000) = .int 4096 ∧
    maxOutputTokensOf true false true 0 (.int 4096) .null = .int 4096 :=
  ⟨(thinking_budget_adjustment 0 8192 16000 (by decide) (by decide)).1 (by decide),
   (thinking_budget_adjustment 0 4096 1000 (by decide) (by decide)).2.1 (by decide),
   (thinking_budget_adjustment 0 4096 1000 (by decide) (by decide)).2.2⟩

/-! ## Character-level utilities

The rate-limit parser (`parseResetTime`) and the server's `parseError` work by
regular-expression matching over JavaScript strings.  Each concrete regex of
the source is translated into a deterministic matcher over `List Char` with
JavaScript semantics: leftmost match, alternatives in written order, greedy
repetition (backtracking is irrelevant for these patterns because adjacent
pieces use disjoint character classes; where an optional piece needs the
try-with-then-without order, the matcher implements it explicitly). -/

def isDigitCh (c : Char) : Bool := '0' ≤ c && c ≤ '9'

/-- JavaScript `\w` (ASCII word character). -/
def isWordCh (c : Char) : Bool :=
  ('a' ≤ c && c ≤ 'z') || ('A' ≤ c && c ≤ 'Z') || isDigitCh c || c = '_'

/-- JavaScript `\s`, restricted to the ASCII whitespace the sources can see. -/
def isSpaceCh (c : Char) : Bool :=
  c = ' ' || c = '\t' || c = '\n' || c = '\r' || c = '\x0b' || c = '\x0c'

def lowCh (c : Char) : Char := c.toLower

def digitVal (c : Char) : Nat := c.toNat - '0'.toNat

def digitsToNat (ds : List Char) : Nat :=
  ds.foldl (fun n c => 10 * n + digitVal c) 0

/-- Case-sensitive literal match; returns the rest of the input. -/
def matchLit : List Char → List Char → Option (List Char)
  | [], cs => some cs
  | _ :: _, [] => none
  | p :: ps, c :: cs => if p = c then matchLit ps cs else none

/-- Case-insensitive literal match (for `/i` regexes); returns the rest. -/
def matchLitCI : List Char → List Char → Option (List Char)
  | [], cs => some cs
  | _ :: _, [] => none
  | p :: ps, c :: cs => if lowCh p = lowCh c then matchLitCI ps cs else none

/-- Does `pat` occur anywhere in the text?  (JavaScript `String.includes`.) -/
def containsSub (pat : List Char) : List Char → Bool
  | [] => (matchLit pat []).isSome
  | c :: cs => (matchLit pat (c :: cs)).isSome || containsSub pat cs

/-- Leftmost application of an at-position matcher (JavaScript `String.match`
scans left to right and returns the first position where the pattern fits). -/
def scanFor {α : Type} (m : List Char → Option α) : List Char → Option α
  | [] => m []
  | c :: cs =>
      match m (c :: cs) with
      | some r => some r
      | none => scanFor m cs

/-- One or more digits (`\d+`), greedy; returns digits and rest. -/
def takeDigits1 (cs : List Char) : Option (List Char × List Char) :=
  let s := cs.span isDigitCh
  if s.1.isEmpty then none else some s

/-- Exactly `n` digits (`\d{n}`). -/
def takeNDigits : Nat → List Char → Option (List Char × List Char)
  | 0, cs => some ([], cs)
  | n + 1, c :: cs =>
      if isDigitCh c then (takeNDigits n cs).map (fun s => (c :: s.1, s.2))
      else none
  | _ + 1, [] => none

/-- `parseInt(s, 10)`: skip leading whitespace, optional sign, decimal digits;
`none` models `NaN`. -/
def jsParseInt (s : String) : Option Int :=
  let cs := s.data.dropWhile isSpaceCh
  match cs with
  | '-' :: r =>
      let ds := (r.span isDigitCh).1
      if ds.isEmpty then none else some (-(digitsToNat ds : Int))
  | '+' :: r =>
      let ds := (r.span isDigitCh).1
      if ds.isEmpty then none else some ((digitsToNat ds : Int))
  | r =>
      let ds := (r.span isDigitCh).1
      if ds.isEmpty then none else some ((digitsToNat ds : Int))

/-- `Math.ceil(parseFloat(cap) * 1000)` for a capture drawn from `[\d.]+`:
`parseFloat` reads leading digits, then an optional fraction up to a second
dot; it is `NaN` (here `JNum.nan`) when no digit is read.  The ceiling of the
exact rational is used. -/
def parseFloatCeilMillis (cap : List Char) : JNum :=
  let s1 := cap.span isDigitCh
  let fp : List Char :=
    match s1.2 with
    | '.' :: r2 => (r2.span isDigitCh).1
    | _ => []
  if s1.1.isEmpty && fp.isEmpty then .nan
  else
    let den : Nat := 10 ^ fp.length
    let v : Nat := digitsToNat s1.1 * 1000 + (digitsToNat fp * 1000 + den - 1) / den
    .int (v : Int)

/-! ## Rate-limit parser (`parseResetTime`, cloudcode-client.js lines 55-180) -/

/-- `[-_]?` before a known letter: consuming a dash or underscore is the
regex's greedy choice and can never need undoing. -/
def skipDashUnderscore : List Char → List Char
  | '-' :: rest => rest
  | '_' :: rest => rest
  | cs => cs

/-- The keyword `(?:retry[-_]?after[-_]?ms|retryDelay)` of the two body
regexes, case-insensitive, alternatives in written order (they can never both
match at one position, so no cross-alternative backtracking arises). -/
def matchRetryKw (cs : List Char) : Option (List Char) :=
  match (matchLitCI "retry".data cs).bind (fun r1 =>
      (matchLitCI "after".data (skipDashUnderscore r1)).bind (fun r2 =>
        matchLitCI "ms".data (skipDashUnderscore r2))) with
  | some r => some r
  | none => matchLitCI "retrydelay".data cs

/-- `[:\s"]` (the separator class of the body regexes). -/
def isSepCh (c : Char) : Bool := c = ':' || isSpaceCh c || c = '"'

/-- `[:\s"]+`, greedy. -/
def takeSeps1 (cs : List Char) : Option (List Char) :=
  let s := cs.span isSepCh
  if s.1.isEmpty then none else some s.2

/-- `\s+`, greedy. -/
def takeSpace1 (cs : List Char) : Option (List Char) :=
  let s := cs.span isSpaceCh
  if s.1.isEmpty then none else some s.2

/-- At-position matcher for
`/(?:retry[-_]?after[-_]?ms|retryDelay)[:\s"]+([\d\.]+)(?:s\b|s")/i`,
returning the `[\d.]+` capture.  `s\b` means `s` followed by a non-word
character or the end; `s"` is subsumed by it. -/
def matchSecCapAt (cs : List Char) : Option (List Char) :=
  (matchRetryKw cs).bind fun r1 =>
  (takeSeps1 r1).bind fun r2 =>
  let s := r2.span (fun c => isDigitCh c || c = '.')
  if s.1.isEmpty then none
  else
    match s.2 with
    | c :: rest =>
        if lowCh c = 's' then
          match rest with
          | [] => some s.1
          | d :: _ => if isWordCh d then none else some s.1
        else none
    | [] => none

/-- At-position matcher for
`/(?:retry[-_]?after[-_]?ms|retryDelay)[:\s"]+(\d+)(?:\s*ms)?(?![\w.])/i`,
returning the digit capture.  The optional `\s*ms` is tried first, then
dropped, exactly as the regex engine backtracks. -/
def matchMsAt (cs : List Char) : Option Nat :=
  (matchRetryKw cs).bind fun r1 =>
  (takeSeps1 r1).bind fun r2 =>
  (takeDigits1 r2).bind fun s =>
  let look : List Char → Bool := fun r =>
    match r with
    | [] => true
    | d :: _ => !(isWordCh d || d = '.')
  let withMs : Option (List Char) := matchLitCI "ms".data (s.2.dropWhile isSpaceCh)
  match withMs with
  | some r4 =>
      if look r4 then some (digitsToNat s.1)
      else if look s.2 then some (digitsToNat s.1) else none
  | none => if look s.2 then some (digitsToNat s.1) else none

/-- Tail `(\d+)\s*(?:sec|s\b)` of the "retry after N seconds" regex. -/
def matchRetrySecTail (cs : List Char) : Option Nat :=
  (takeDigits1 cs).bind fun s =>
  let r5 := s.2.dropWhile isSpaceCh
  match matchLitCI "sec".data r5 with
  | some _ => some (digitsToNat s.1)
  | none =>
      match r5 with
      | c :: rest =>
          if lowCh c = 's' then
            match rest with
            | [] => some (digitsToNat s.1)
            | d :: _ => if isWordCh d then none else some (digitsToNat s.1)
          else none
      | [] => none

/-- At-position matcher for `/retry\s+(?:after\s+)?(\d+)\s*(?:sec|s\b)/i`,
returning the seconds capture. -/
def matchRetrySecAt (cs : List Char) : Option Nat :=
  (matchLitCI "retry".data cs).bind fun r1 =>
  (takeSpace1 r1).bind fun r2 =>
  match (matchLitCI "after".data r2).bind takeSpace1 with
  | some r2b =>
      match matchRetrySecTail r2b with
      | some v => some v
      | none => matchRetrySecTail r2
  | none => matchRetrySecTail r2

/-- At-position matcher for `/(\d+)h(\d+)m(\d+)s|(\d+)m(\d+)s|(\d+)s/i`:
alternatives in written order; returns the matched substring (the capture
area) and the duration in milliseconds computed as lines 144-155 do. -/
def matchDurationAt (cs : List Char) : Option (List Char × Nat) :=
  match takeDigits1 cs with
  | none => none
  | some (d1, r1) =>
      let alt1 : Option (List Char × Nat) :=
        match r1 with
        | ch :: r2 =>
            if lowCh ch = 'h' then
              match takeDigits1 r2 with
              | some (d2, r3) =>
                  match r3 with
                  | cm :: r4 =>
                      if lowCh cm = 'm' then
                        match takeDigits1 r4 with
                        | some (d3, r5) =>
                            match r5 with
                            | cls :: _ =>
                                if lowCh cls = 's' then
                                  some (d1 ++ ch :: (d2 ++ cm :: (d3 ++ [cls])),
                                    (digitsToNat d1 * 3600 + digitsToNat d2 * 60
                                      + digitsToNat d3) * 1000)
                                else none
                            | [] => none
                        | none => none
                      else none
                  | [] => none
              | none => none
            else none
        | [] => none
      match alt1 with
      | some r => some r
      | none =>
          let alt2 : Option (List Char × Nat) :=
            match r1 with
            | cm :: r2 =>
                if lowCh cm = 'm' then
                  match takeDigits1 r2 with
                  | some (d2, r3) =>
                      match r3 with
                      | cls :: _ =>
                          if lowCh cls = 's' then
                            some (d1 ++ cm :: (d2 ++ [cls]),
                              (digitsToNat d1 * 60 + digitsToNat d2) * 1000)
                          else none
                      | [] => none
                  | none => none
                else none
            | [] => none
          match alt2 with
          | some r => some r
          | none =>
              match r1 with
              | cls :: _ =>
                  if lowCh cls = 's' then some (d1 ++ [cls], digitsToNat d1 * 1000)
                  else none
              | [] => none

/-- At-position matcher for
`/reset[:\s"]+(\d{4}-\d{2}-\d{2}T[\d:.]+Z?)/i`, returning the timestamp
capture handed to `new Date(...)`. -/
def matchIsoAt (cs : List Char) : Option (List Char) :=
  (matchLitCI "reset".data cs).bind fun r1 =>
  (takeSeps1 r1).bind fun r2 =>
  (takeNDigits 4 r2).bind fun sy =>
  match sy.2 with
  | '-' :: r4 =>
      (takeNDigits 2 r4).bind fun smo =>
      match smo.2 with
      | '-' :: r6 =>
          (takeNDigits 2 r6).bind fun sd =>
          match sd.2 with
          | ct :: r8 =>
              if lowCh ct = 't' then
                let stm := r8.span (fun c => isDigitCh c || c = ':' || c = '.')
                if stm.1.isEmpty then none
                else
                  let base := sy.1 ++ '-' :: (smo.1 ++ '-' :: (sd.1 ++ ct :: stm.1))
                  match stm.2 with
                  | cz :: _ =>
                      if lowCh cz = 'z' then some (base ++ [cz]) else some base
                  | [] => some base
              else none
          | [] => none
      | _ => none
  | _ => none

/-- The three response headers `parseResetTime` reads (`headers.get(...)`;
`none` models an absent header). -/
structure HeaderBag where
  retryAfter : Option String
  xRatelimitReset : Option String
  xRatelimitResetAfter : Option String
deriving DecidableEq, Repr

/-- The `responseOrError` argument: an HTTP `Response` (headers are consulted,
the body text is the separate `errorText`) or an `Error` (whose `message` is
scanned). -/
inductive RLSource where
  | response (h : HeaderBag)
  | errorObj (message : String)
deriving DecidableEq, Repr

/-- `if (headerValue)`: an absent header or an empty string is falsy. -/
def getHeaderVal : Option String → Option String
  | some s => if s = "" then none else some s
  | none => none

/-- The `retry-after` step (lines 63-81): integer seconds, else HTTP date via
`dateParse` (the behaviour of `new Date(s).getTime()`, kept abstract as a
parameter; `none` models `NaN`), kept only when strictly positive. -/
def retryAfterStage (dateParse : String → Option Int) (h : HeaderBag)
    (now : Int) : JNum :=
  match getHeaderVal h.retryAfter with
  | some s =>
      match jsParseInt s with
      | some k => .int (k * 1000)
      | none =>
          match dateParse s with
          | some t => if 0 < t - now then .int (t - now) else .null
          | none => .null
  | none => .null

/-- The `x-ratelimit-reset` step (lines 84-95), run only when the running
result is falsy: absolute Unix seconds minus now, or `null` when stale or
unparsable. -/
def xResetStage (h : HeaderBag) (now : Int) (r : JNum) : JNum :=
  if r.truthy then r
  else
    match getHeaderVal h.xRatelimitReset with
    | some s =>
        match jsParseInt s with
        | some k => if 0 < k * 1000 - now then .int (k * 1000 - now) else .null
        | none => .null
    | none => r

/-- The `x-ratelimit-reset-after` step (lines 98-107): positive integer
seconds only; otherwise the running result is left alone. -/
def xResetAfterStage (h : HeaderBag) (r : JNum) : JNum :=
  if r.truthy then r
  else
    match getHeaderVal h.xRatelimitResetAfter with
    | some s =>
        match jsParseInt s with
        | some k => if 0 < k then .int (k * 1000) else r
        | none => r
    | none => r

def headersScan (dateParse : String → Option Int) (h : HeaderBag)
    (now : Int) : JNum :=
  xResetAfterStage h (xResetStage h now (retryAfterStage dateParse h now))

/-- Body pattern 1 (lines 115-119): decimal seconds with an `s` suffix;
assigns `Math.ceil(parseFloat(capture) * 1000)` whenever the pattern matches. -/
def bodyStep1 (msg : List Char) (r0 : JNum) : JNum :=
  match scanFor matchSecCapAt msg with
  | some cap => parseFloatCeilMillis cap
  | none => r0

/-- Body pattern 2 (lines 121-129): integer milliseconds, tried only while the
running result is falsy. -/
def bodyStep2 (msg : List Char) (r : JNum) : JNum :=
  if r.truthy then r
  else
    match scanFor matchMsAt msg with
    | some n => .int (n : Int)
    | none => r

/-- Body pattern 3 (lines 132-138): "retry after N seconds". -/
def bodyStep3 (msg : List Char) (r : JNum) : JNum :=
  if r.truthy then r
  else
    match scanFor matchRetrySecAt msg with
    | some n => .int ((n * 1000 : Nat) : Int)
    | none => r

/-- Body pattern 4 (lines 141-160): `HhMmSs` / `MmSs` / `Ss` durations. -/
def bodyStep4 (msg : List Char) (r : JNum) : JNum :=
  if r.truthy then r
  else
    match scanFor matchDurationAt msg with
    | some dm => .int (dm.2 : Int)
    | none => r

/-- Body pattern 5 (lines 163-176): ISO reset timestamp, via `dateParse`,
keeping only strictly positive differences. -/
def bodyStep5 (dateParse : String → Option Int) (msg : List Char) (now : Int)
    (r : JNum) : JNum :=
  if r.truthy then r
  else
    match scanFor matchIsoAt msg with
    | some cap =>
        match dateParse (String.mk cap) with
        | some t => if 0 < t - now then .int (t - now) else .null
        | none => r
    | none => r

/-- The body scan (lines 111-177), entered only when the headers produced a
falsy value `r0`: the four body patterns plus the ISO fallback, in order. -/
def bodyScan (dateParse : String → Option Int) (msg : List Char) (now : Int)
    (r0 : JNum) : JNum :=
  bodyStep5 dateParse msg now
    (bodyStep4 msg (bodyStep3 msg (bodyStep2 msg (bodyStep1 msg r0))))

/-- `parseResetTime(responseOrError, errorText)` (lines 55-180).  Returns
`null`, a number of milliseconds, or `NaN`, with JavaScript truthiness
deciding every fall-through. -/
def parseResetTime (dateParse : String → Option Int) (src : RLSource)
    (errorText : String) (now : Int) : JNum :=
  let r : JNum :=
    match src with
    | .response h => headersScan dateParse h now
    | .errorObj _ => .null
  let msg : String :=
    match src with
    | .errorObj m => m
    | .response _ => errorText
  if r.truthy then r else bodyScan dateParse msg.data now r

/-- C5: `parseResetTime` consults its sources in precedence order, stopping at
the first (truthy) hit — a truthy `retry-after` result is final; any truthy
header result suppresses the body scan; within the body, a truthy
seconds-pattern hit is final — and on the spec's reference inputs it returns
60000 for `retry-after: 60`, 7500 for `"retryDelay":"7.5s"`, 5025000 for
`"1h23m45s"`, and null for a body with no known pattern. -/
theorem parseResetTime_reference :
    (∀ (dp : String → Option Int) (h : HeaderBag) (et : String) (now : Int),
        (retryAfterStage dp h now).truthy = true →
        parseResetTime dp (.response h) et now = retryAfterStage dp h now) ∧
    (∀ (dp : String → Option Int) (h : HeaderBag) (et : String) (now : Int),
        (headersScan dp h now).truthy = true →
        parseResetTime dp (.response h) et now = headersScan dp h now) ∧
    (∀ (dp : String → Option Int) (m : String) (now : Int) (cap : List Char),
        scanFor matchSecCapAt m.data = some cap →
        (parseFloatCeilMillis cap).truthy = true →
        parseResetTime dp (.errorObj m) "" now = parseFloatCeilMillis cap) ∧
    (∀ (dp : String → Option Int) (now : Int),
        parseResetTime dp (.response ⟨some "60", none, none⟩) "" now = .int 60000) ∧
    (∀ (dp : String → Option Int) (now : Int),
        parseResetTime dp (.errorObj "\"retryDelay\":\"7.5s\"") "" now = .int 7500) ∧
    (∀ (dp : String → Option Int) (now : Int),
        parseResetTime dp (.errorObj "\"1h23m45s\"") "" now = .int 5025000) ∧
    (∀ (dp : String → Option Int) (now : Int),
        parseResetTime dp (.errorObj "no known pattern here") "" now = .null) := by
  refine ⟨?_, ?_, ?_, ?_, ?_, ?_, ?_⟩
  · intro dp h et now ht
    have e1 : xResetStage h now (retryAfterStage dp h now) = retryAfterStage dp h now := by
      simp [xResetStage, ht]
    have e2 : headersScan dp h now = retryAfterStage dp h now := by
      simp [headersScan, e1, xResetAfterStage, ht]
    simp [parseResetTime, e2, ht]
  · intro dp h et now ht
    simp [parseResetTime, ht]
  · intro dp m now cap hscan htr
    have b1 : bodyStep1 m.data .null = parseFloatCeilMillis cap := by
      simp [bodyStep1, hscan]
    have b2 : bodyStep2 m.data (parseFloatCeilMillis cap) = parseFloatCeilMillis cap := by
      simp [bodyStep2, htr]
    have b3 : bodyStep3 m.data (parseFloatCeilMillis cap) = parseFloatCeilMillis cap := by
      simp [bodyStep3, htr]
    have b4 : bodyStep4 m.data (parseFloatCeilMillis cap) = parseFloatCeilMillis cap := by
      simp [bodyStep4, htr]
    have b5 : bodyStep5 dp m.data now (parseFloatCeilMillis cap) = parseFloatCeilMillis cap := by
      simp [bodyStep5, htr]
    simp [parseResetTime, JNum.truthy, bodyScan, b1, b2, b3, b4, b5]
  · intro dp now; rfl
  · intro dp now; rfl
  · intro dp now; rfl
  · intro dp now; rfl

/-- Witness for C5 at concrete inputs: `retry-after: 60` resolves through the
retry-after stage; the `"retryDelay":"7.5s"` body resolves through the first
body pattern; an unknown body yields null. -/
theorem parseResetTime_reference_witness :
    parseResetTime (fun _ => none) (.response ⟨some "60", none, none⟩) "" 0
      = retryAfterStage (fun _ => none) ⟨some "60", none, none⟩ 0 ∧
    parseResetTime (fun _ => none) (.errorObj "\"retryDelay\":\"7.5s\"") "" 0
      = parseFloatCeilMillis "7.5".data ∧
    parseResetTime (fun _ => none) (.errorObj "no known pattern here") "" 0 = .null :=
  ⟨parseResetTime_reference.1 (fun _ => none) ⟨some "60", none, none⟩ "" 0 (by decide),
   parseResetTime_reference.2.2.1 (fun _ => none) "\"retryDelay\":\"7.5s\"" 0
     "7.5".data (by decide) (by decide),
   parseResetTime_reference.2.2.2.2.2.2 (fun _ => none) 0⟩

/-- Counterexample to C6.  A `retry-after: -5` header makes `parseResetTime`
return `-5000`: a negative number, not null — `parseInt` happily parses the
sign, and `-5000` is truthy so no later source is consulted. -/
theorem parseResetTime_negative_counterexample :
    parseResetTime (fun _ => none) (.response ⟨some "-5", none, none⟩) "" 0
      = .int (-5000) ∧
    JNum.int (-5000) ≠ .null ∧ (-5000 : Int) < 0 := by
  refine ⟨rfl, by decide, by decide⟩

/-- "Falsy or a nonnegative number": `null`, `NaN`, or a nonnegative integer. -/
def okJ (x : JNum) : Prop :=
  x = .null ∨ x = .nan ∨ ∃ n : Nat, x = .int (n : Int)

lemma okJ_of_falsy (x : JNum) (h : x.truthy = false) : okJ x := by
  cases x with
  | null => exact Or.inl rfl
  | nan => exact Or.inr (Or.inl rfl)
  | int n =>
      simp [JNum.truthy] at h
      exact Or.inr (Or.inr ⟨0, by simp [h]⟩)

lemma parseFloatCeilMillis_okJ (cap : List Char) : okJ (parseFloatCeilMillis cap) := by
  unfold parseFloatCeilMillis
  dsimp only
  split
  · exact Or.inr (Or.inl rfl)
  · exact Or.inr (Or.inr ⟨_, rfl⟩)

lemma bodyStep1_okJ (msg : List Char) (r : JNum) (h : okJ r) :
    okJ (bodyStep1 msg r) := by
  unfold bodyStep1
  cases scanFor matchSecCapAt msg with
  | some cap => exact parseFloatCeilMillis_okJ cap
  | none => exact h

lemma bodyStep2_okJ (msg : List Char) (r : JNum) (h : okJ r) :
    okJ (bodyStep2 msg r) := by
  unfold bodyStep2
  by_cases ht : r.truthy = true
  · simp [ht]; exact h
  · simp [ht]
    cases scanFor matchMsAt msg with
    | some n => exact Or.inr (Or.inr ⟨n, rfl⟩)
    | none => exact h

lemma bodyStep3_okJ (msg : List Char) (r : JNum) (h : okJ r) :
    okJ (bodyStep3 msg r) := by
  unfold bodyStep3
  by_cases ht : r.truthy = true
  · simp [ht]; exact h
  · simp [ht]
    cases scanFor matchRetrySecAt msg with
    | some n => exact Or.inr (Or.inr ⟨n * 1000, rfl⟩)
    | none => exact h

lemma bodyStep4_okJ (msg : List Char) (r : JNum) (h : okJ r) :
    okJ (bodyStep4 msg r) := by
  unfold bodyStep4
  by_cases ht : r.truthy = true
  · simp [ht]; exact h
  · simp [ht]
    cases scanFor matchDurationAt msg with
    | some dm => exact Or.inr (Or.inr ⟨dm.2, rfl⟩)
    | none => exact h

lemma bodyStep5_okJ (dp : String → Option Int) (msg : List Char) (now : Int)
    (r : JNum) (h : okJ r) : okJ (bodyStep5 dp msg now r) := by
  unfold bodyStep5
  by_cases ht : r.truthy = true
  · simp [ht]; exact h
  · simp only [ht, if_false, Bool.false_eq_true]
    split
    · split
      · split
        · next t _ h0 =>
            exact Or.inr (Or.inr ⟨(t - now).toNat, by
              rw [Int.toNat_of_nonneg (by omega)]⟩)
        · exact Or.inl rfl
      · exact h
    · exact h

lemma bodyScan_okJ (dp : String → Option Int) (msg : List Char) (now : Int)
    (r0 : JNum) (h : okJ r0) : okJ (bodyScan dp msg now r0) :=
  bodyStep5_okJ dp msg now _
    (bodyStep4_okJ msg _ (bodyStep3_okJ msg _ (bodyStep2_okJ msg _
      (bodyStep1_okJ msg r0 h))))

/-- The classification of a header-scan result: falsy-or-nonnegative, except
that a negative integer `retry-after` header survives as its negative
millisecond value. -/
def headerClass (h : HeaderBag) (x : JNum) : Prop :=
  okJ x ∨ ∃ s k, getHeaderVal h.retryAfter = some s ∧ jsParseInt s = some k ∧
    k < 0 ∧ x = .int (k * 1000)

lemma retryAfterStage_class (dp : String → Option Int) (h : HeaderBag)
    (now : Int) : headerClass h (retryAfterStage dp h now) := by
  unfold retryAfterStage
  split
  · next s hga =>
      split
      · next k hpi =>
          rcases lt_or_le k 0 with hk | hk
          · exact Or.inr ⟨s, k, hga, hpi, hk, rfl⟩
          · refine Or.inl (Or.inr (Or.inr ⟨(k * 1000).toNat, ?_⟩))
            rw [Int.toNat_of_nonneg (by positivity)]
      · split
        · split
          · next t _ h0 =>
              exact Or.inl (Or.inr (Or.inr ⟨(t - now).toNat, by
                rw [Int.toNat_of_nonneg (by omega)]⟩))
          · exact Or.inl (Or.inl rfl)
        · exact Or.inl (Or.inl rfl)
  · exact Or.inl (Or.inl rfl)

lemma xResetStage_class (h : HeaderBag) (now : Int)
    (r : JNum) (hc : headerClass h r) :
    headerClass h (xResetStage h now r) := by
  unfold xResetStage
  by_cases ht : r.truthy = true
  · simp [ht]; exact hc
  · simp only [ht, if_false, Bool.false_eq_true]
    split
    · split
      · split
        · next k _ h0 =>
            exact Or.inl (Or.inr (Or.inr ⟨(k * 1000 - now).toNat, by
              rw [Int.toNat_of_nonneg (by omega)]⟩))
        · exact Or.inl (Or.inl rfl)
      · exact Or.inl (Or.inl rfl)
    · exact hc

lemma xResetAfterStage_class (h : HeaderBag)
    (r : JNum) (hc : headerClass h r) :
    headerClass h (xResetAfterStage h r) := by
  unfold xResetAfterStage
  by_cases ht : r.truthy = true
  · simp [ht]; exact hc
  · simp only [ht, if_false, Bool.false_eq_true]
    split
    · split
      · split
        · next k _ h0 =>
            exact Or.inl (Or.inr (Or.inr ⟨(k * 1000).toNat, by
              rw [Int.toNat_of_nonneg (by positivity)]⟩))
        · exact hc
      · exact hc
    · exact hc

/-- C6 (amended): for every input, `parseResetTime` returns a falsy value
(null, NaN or 0) or a nonnegative number of milliseconds, with one exception:
a `retry-after` header holding a negative integer is returned as its negative
millisecond value.  A `retry-after: 0` header (with no other source) yields
`0`, not null; `0` is falsy, so `markRateLimited` still falls back to the
operator-configured default cooldown. -/
theorem parseResetTime_classification :
    (∀ (dp : String → Option Int) (src : RLSource) (et : String) (now : Int),
      okJ (parseResetTime dp src et now) ∨
      ∃ h s k, src = .response h ∧ getHeaderVal h.retryAfter = some s ∧
        jsParseInt s = some k ∧ k < 0 ∧
        parseResetTime dp src et now = .int (k * 1000)) ∧
    (∀ (dp : String → Option Int) (now : Int),
      parseResetTime dp (.response ⟨some "0", none, none⟩) "" now = .int 0) ∧
    (∀ (dflt : Int) (r : JNum), r.truthy = false →
      cooldownOf dflt ⟨none⟩ r = dflt) := by
  refine ⟨?_, ?_, ?_⟩
  · intro dp src et now
    cases src with
    | errorObj m =>
        left
        have e : parseResetTime dp (.errorObj m) et now
            = bodyScan dp m.data now .null := rfl
        rw [e]
        exact bodyScan_okJ dp m.data now .null (Or.inl rfl)
    | response h =>
        have hc : headerClass h (headersScan dp h now) :=
          xResetAfterStage_class h _
            (xResetStage_class h now _ (retryAfterStage_class dp h now))
        by_cases ht : (headersScan dp h now).truthy = true
        · have e : parseResetTime dp (.response h) et now = headersScan dp h now := by
            simp [parseResetTime, ht]
          rw [e]
          rcases hc with hok | ⟨s, k, h1, h2, h3, h4⟩
          · exact Or.inl hok
          · exact Or.inr ⟨h, s, k, rfl, h1, h2, h3, h4⟩
        · have e : parseResetTime dp (.response h) et now
              = bodyScan dp et.data now (headersScan dp h now) := by
            simp [parseResetTime, ht]
          rw [e]
          left
          exact bodyScan_okJ dp et.data now _
            (okJ_of_falsy _ (Bool.not_eq_true _ ▸ eq_false_of_ne_true ht))
  · intro dp now; rfl
  · intro dflt r h
    simp [cooldownOf, h, timeTruthy]

/-- Witness for the amended C6: the classification applied at a concrete body,
the `retry-after: 0` evaluation, and the default-cooldown fallback at
`resetMs = 0`. -/
theorem parseResetTime_classification_witness :
    (okJ (parseResetTime (fun _ => none) (.errorObj "boom") "" 0) ∨
      ∃ h s k, RLSource.errorObj "boom" = .response h ∧
        getHeaderVal h.retryAfter = some s ∧ jsParseInt s = some k ∧ k < 0 ∧
        parseResetTime (fun _ => none) (.errorObj "boom") "" 0 = .int (k * 1000)) ∧
    parseResetTime (fun _ => none) (.response ⟨some "0", none, none⟩) "" 7 = .int 0 ∧
    cooldownOf 10000 ⟨none⟩ (.int 0) = 10000 :=
  ⟨parseResetTime_classification.1 (fun _ => none) (.errorObj "boom") "" 0,
   parseResetTime_classification.2.1 (fun _ => none) 7,
   parseResetTime_classification.2.2 10000 (.int 0) (by decide)⟩

/-! ## Server error mapping (`parseError`, server file lines 48-87) -/

/-- At-position matcher for
`/quota will reset after (\d+h\d+m\d+s|\d+m\d+s|\d+s)/i`, returning the
duration capture. -/
def matchResetPhraseAt (cs : List Char) : Option (List Char) :=
  (matchLitCI "quota will reset after ".data cs).bind fun r =>
  (matchDurationAt r).map (fun dm => dm.1)

/-- At-position matcher for `/"model":\s*"([^"]+)"/` (case-sensitive),
returning the model-name capture. -/
def matchModelAt (cs : List Char) : Option (List Char) :=
  (matchLit "\"model\":".data cs).bind fun r1 =>
  match r1.dropWhile isSpaceCh with
  | '"' :: r3 =>
      let s := r3.span (fun c => c ≠ '"')
      if s.1.isEmpty then none
      else
        match s.2 with
        | '"' :: _ => some s.1
        | _ => none
  | _ => none

/-- At-position matcher for `/"message":"([^"]+)"/` (case-sensitive). -/
def matchMessageAt (cs : List Char) : Option (List Char) :=
  (matchLit "\"message\":\"".data cs).bind fun r1 =>
  let s := r1.span (fun c => c ≠ '"')
  if s.1.isEmpty then none
  else
    match s.2 with
    | '"' :: _ => some s.1
    | _ => none

/-- The `{errorType, statusCode, errorMessage}` triple `parseError` returns. -/
structure ParsedError where
  errorType : String
  statusCode : Nat
  errorMessage : String
deriving DecidableEq, Repr

/-- `modelMatch ? modelMatch[1] : 'the model'` (lines 63-64). -/
def modelOf (cs : List Char) : String :=
  match scanFor matchModelAt cs with
  | some m => String.mk m
  | none => "the model"

/-- `parseError(error)` (server file lines 48-87): the substring checks in
source order (`401`/`UNAUTHENTICATED` first), each branch producing the
client-facing type, status and message. -/
def parseError (msg : String) : ParsedError :=
  let cs := msg.data
  if containsSub "401".data cs || containsSub "UNAUTHENTICATED".data cs then
    ⟨"authentication_error", 401,
     "Authentication failed. Make sure Antigravity is running with a valid token."⟩
  else if containsSub "429".data cs || containsSub "RESOURCE_EXHAUSTED".data cs
      || containsSub "QUOTA_EXHAUSTED".data cs then
    match scanFor matchResetPhraseAt cs with
    | some dur =>
        ⟨"invalid_request_error", 400,
         "You have exhausted your capacity on " ++ modelOf cs ++
           ". Quota will reset after " ++ String.mk dur ++ "."⟩
    | none =>
        ⟨"invalid_request_error", 400,
         "You have exhausted your capacity on " ++ modelOf cs ++
           ". Please wait for your quota to reset."⟩
  else if containsSub "invalid_request_error".data cs
      || containsSub "INVALID_ARGUMENT".data cs then
    match scanFor matchMessageAt cs with
    | some m => ⟨"invalid_request_error", 400, String.mk m⟩
    | none => ⟨"invalid_request_error", 400, msg⟩
  else if containsSub "All endpoints failed".data cs then
    ⟨"api_error", 503,
     "Unable to connect to Claude API. Check that Antigravity is running."⟩
  else if containsSub "PERMISSION_DENIED".data cs then
    ⟨"permission_error", 403, "Permission denied. Check your Antigravity license."⟩
  else ⟨"api_error", 500, msg⟩

/-- Counterexample to C9.  A genuine rate-limit failure message of exactly the
shape `sendMessage` throws, whose ISO reset timestamp happens to carry the
millisecond field `.401`, is mapped to status 401 `authentication_error`
because the `401` substring check runs first — not to the claimed 400. -/
theorem rateLimit_mapping_counterexample :
    containsSub "RESOURCE_EXHAUSTED".data
      ("RESOURCE_EXHAUSTED: Rate limited. Quota will reset after 2m10s. Next available: 2026-01-01T00:00:00.401Z").data = true ∧
    (parseError "RESOURCE_EXHAUSTED: Rate limited. Quota will reset after 2m10s. Next available: 2026-01-01T00:00:00.401Z").statusCode = 401 ∧
    (parseError "RESOURCE_EXHAUSTED: Rate limited. Quota will reset after 2m10s. Next available: 2026-01-01T00:00:00.401Z").errorType = "authentication_error" := by
  refine ⟨by decide, by decide, by decide⟩

/-- C9 (amended): a rate-limit failure (`429` / `RESOURCE_EXHAUSTED` /
`QUOTA_EXHAUSTED` in the message) is mapped to client status 400 with type
`invalid_request_error` and a message rendering the exhausted capacity — with
the parsed reset duration when the "quota will reset after" phrase is present —
provided the message does not also contain `401` or `UNAUTHENTICATED`, whose
branch is checked first and takes precedence. -/
theorem rateLimit_client_mapping (msg : String)
    (h401 : containsSub "401".data msg.data = false)
    (hauth : containsSub "UNAUTHENTICATED".data msg.data = false)
    (h429 : (containsSub "429".data msg.data ||
             containsSub "RESOURCE_EXHAUSTED".data msg.data ||
             containsSub "QUOTA_EXHAUSTED".data msg.data) = true) :
    (parseError msg).statusCode = 400 ∧
    (parseError msg).errorType = "invalid_request_error" ∧
    ((∃ d, scanFor matchResetPhraseAt msg.data = some d ∧
        (parseError msg).errorMessage
          = "You have exhausted your capacity on " ++ modelOf msg.data ++
            ". Quota will reset after " ++ String.mk d ++ ".") ∨
     (scanFor matchResetPhraseAt msg.data = none ∧
        (parseError msg).errorMessage
          = "You have exhausted your capacity on " ++ modelOf msg.data ++
            ". Please wait for your quota to reset.")) := by
  have e : parseError msg
      = (match scanFor matchResetPhraseAt msg.data with
        | some dur =>
            (⟨"invalid_request_error", 400,
             "You have exhausted your capacity on " ++ modelOf msg.data ++
               ". Quota will reset after " ++ String.mk dur ++ "."⟩ : ParsedError)
        | none =>
            ⟨"invalid_request_error", 400,
             "You have exhausted your capacity on " ++ modelOf msg.data ++
               ". Please wait for your quota to reset."⟩) := by
    simp [parseError, h401, hauth, h429]
  cases hscan : scanFor matchResetPhraseAt msg.data with
  | some d =>
      rw [hscan] at e
      rw [e]
      exact ⟨rfl, rfl, Or.inl ⟨d, rfl, rfl⟩⟩
  | none =>
      rw [hscan] at e
      rw [e]
      exact ⟨rfl, rfl, Or.inr ⟨rfl, rfl⟩⟩

/-- Witness for the amended C9 at a concrete rate-limit failure message. -/
theorem rateLimit_client_mapping_witness :
    (parseError "RESOURCE_EXHAUSTED: Rate limited. Quota will reset after 2m10s. Next available: 2026-01-01T00:00:00.500Z").statusCode = 400 ∧
    (parseError "RESOURCE_EXHAUSTED: Rate limited. Quota will reset after 2m10s. Next available: 2026-01-01T00:00:00.500Z").errorType = "invalid_request_error" :=
  ⟨(rateLimit_client_mapping
      "RESOURCE_EXHAUSTED: Rate limited. Quota will reset after 2m10s. Next available: 2026-01-01T00:00:00.500Z"
      (by decide) (by decide) (by decide)).1,
   (rateLimit_client_mapping
      "RESOURCE_EXHAUSTED: Rate limited. Quota will reset after 2m10s. Next available: 2026-01-01T00:00:00.500Z"
      (by decide) (by decide) (by decide)).2.1⟩

/-! ## SSE streamer (`streamSSEResponse`, cloudcode-client.js lines 626-859)

The reader loop splits the upstream bytes into lines, keeps only `data:` lines
with non-empty JSON that parses, and processes the decoded objects in order;
lines that are not `data:`, empty payloads and parse failures produce no event
and no state change, so the streamer is a function of the list of decoded
chunks.  `JSON.stringify(functionCall.args || {})` is carried as an opaque
serialised string (`none` stands for absent `args`, serialised as `{}`), and
the random fallback tool id / message id are irrelevant to the event sequence
and omitted from the event payloads. -/

/-- One element of `candidates[0].content.parts`.  `thought` is the
`part.thought === true` test; `text = none` models an absent (`undefined`)
`part.text`. -/
structure GPart where
  thought : Bool
  text : Option String
  thoughtSignature : Option String
  functionCall : Option String
deriving DecidableEq, Repr

structure GCandidate where
  parts : List GPart
  finishReason : Option String
deriving DecidableEq, Repr

structure GUsage where
  promptTokenCount : Option Nat
  candidatesTokenCount : Option Nat
deriving DecidableEq, Repr

/-- One decoded `data:` object (after the `data.response || data` unwrap). -/
structure GChunk where
  usage : Option GUsage
  candidates : List GCandidate
deriving DecidableEq, Repr

inductive BlockKind where
  | thinking | text | tool_use
deriving DecidableEq, Repr

inductive Delta where
  | thinking_delta (s : String)
  | text_delta (s : String)
  | signature_delta (s : String)
  | input_json_delta (s : String)
deriving DecidableEq, Repr

/-- The Anthropic events the streamer emits. -/
inductive SSEEvent where
  | message_start (inputTokens : Nat)
  | content_block_start (index : Nat) (kind : BlockKind)
  | content_block_delta (index : Nat) (d : Delta)
  | content_block_stop (index : Nat)
  | message_delta (stopReason : String) (outputTokens : Nat)
  | message_stop
deriving DecidableEq, Repr

/-- The streamer's mutable locals (lines 628-634). -/
structure StreamState where
  hasStart : Bool
  blockIndex : Nat
  cur : Option BlockKind
  curSig : String
  inTok : Nat
  outTok : Nat
  stopReason : String
deriving DecidableEq, Repr

def initStream : StreamState := ⟨false, 0, none, "", 0, 0, "end_turn"⟩

/-- Close the current block if one is open (`content_block_stop` +
`blockIndex++`). -/
def closeOpenBlock (st : StreamState) : List SSEEvent × StreamState :=
  match st.cur with
  | some _ => ([.content_block_stop st.blockIndex], { st with blockIndex := st.blockIndex + 1 })
  | none => ([], st)

/-- Flush a buffered thinking signature as a `signature_delta`
(`if (currentBlockType === 'thinking' && currentThinkingSignature)`). -/
def flushSig (st : StreamState) : List SSEEvent × StreamState :=
  if st.cur = some .thinking ∧ st.curSig ≠ "" then
    ([.content_block_delta st.blockIndex (.signature_delta st.curSig)],
     { st with curSig := "" })
  else ([], st)

/-- Lines 689-791: the per-part dispatch (`thought === true` first, then
`text !== undefined`, then `functionCall`). -/
def processPart (st : StreamState) (p : GPart) : List SSEEvent × StreamState :=
  if p.thought then
    let text := p.text.getD ""
    let signature := (p.thoughtSignature.getD "")
    let (evs1, st1) :=
      if st.cur ≠ some .thinking then
        let c := closeOpenBlock st
        (c.1 ++ [SSEEvent.content_block_start c.2.blockIndex .thinking],
         { c.2 with cur := some .thinking, curSig := "" })
      else ([], st)
    let st2 := if signature ≠ "" ∧ 50 ≤ signature.length
      then { st1 with curSig := signature } else st1
    (evs1 ++ [SSEEvent.content_block_delta st2.blockIndex (.thinking_delta text)], st2)
  else if p.text.isSome then
    let t := p.text.getD ""
    if t.data.all isSpaceCh then ([], st)
    else if st.cur ≠ some BlockKind.text then
      let f := flushSig st
      let c := closeOpenBlock f.2
      (f.1 ++ c.1 ++
        [SSEEvent.content_block_start c.2.blockIndex .text,
         SSEEvent.content_block_delta c.2.blockIndex (.text_delta t)],
       { c.2 with cur := some .text })
    else
      ([SSEEvent.content_block_delta st.blockIndex (.text_delta t)], st)
  else
    match p.functionCall with
    | some args =>
        let f := flushSig st
        let c := closeOpenBlock f.2
        (f.1 ++ c.1 ++
          [SSEEvent.content_block_start c.2.blockIndex .tool_use,
           SSEEvent.content_block_delta c.2.blockIndex (.input_json_delta args)],
         { c.2 with cur := some .tool_use, stopReason := "tool_use" })
    | none => ([], st)

def processParts (st : StreamState) : List GPart → List SSEEvent × StreamState
  | [] => ([], st)
  | p :: ps =>
      let s1 := processPart st p
      let s2 := processParts s1.2 ps
      (s1.1 ++ s2.1, s2.2)

/-- Lines 658-663: `usage.promptTokenCount || inputTokens` and
`usage.candidatesTokenCount || outputTokens` (a zero count is falsy and keeps
the previous value). -/
def usageUpdate (st : StreamState) (c : GChunk) : StreamState :=
  match c.usage with
  | some u =>
      let it := match u.promptTokenCount with
        | some v => if v ≠ 0 then v else st.inTok
        | none => st.inTok
      let ot := match u.candidatesTokenCount with
        | some v => if v ≠ 0 then v else st.outTok
        | none => st.outTok
      { st with inTok := it, outTok := ot }
  | none => st

/-- Mark `hasEmittedStart = true`. -/
def setStart (st : StreamState) : StreamState :=
  { st with hasStart := true }

/-- Lines 671-685: emit `message_start` on the first chunk whose first
candidate has a non-empty part list. -/
def startGate (st : StreamState) (numParts : Nat) : List SSEEvent × StreamState :=
  if st.hasStart = false ∧ numParts > 0 then
    ([SSEEvent.message_start st.inTok], setStart st)
  else ([], st)

/-- Lines 795-801: the finish-reason update
(`if (firstCandidate.finishReason)` is a truthiness test, so the empty string
is skipped). -/
def finishUpdate (st : StreamState) (fr : Option String) : StreamState :=
  match fr with
  | some f =>
      if f = "" then st
      else if f = "MAX_TOKENS" then { st with stopReason := "max_tokens" }
      else if f = "STOP" then { st with stopReason := "end_turn" }
      else st
  | none => st

/-- Lines 655-801: one decoded chunk — usage update, `candidates[0] || {}`,
`message_start` on the first chunk with parts, the part loop, and the
finish-reason update. -/
def processChunk (st : StreamState) (c : GChunk) : List SSEEvent × StreamState :=
  let st1 := usageUpdate st c
  let firstCand : GCandidate := (c.candidates.head?).getD ⟨[], none⟩
  let s1 := startGate st1 firstCand.parts.length
  let s2 := processParts s1.2 firstCand.parts
  (s1.1 ++ s2.1, finishUpdate s2.2 firstCand.finishReason)

def processChunks (st : StreamState) : List GChunk → List SSEEvent × StreamState
  | [] => ([], st)
  | c :: cs =>
      let s1 := processChunk st c
      let s2 := processChunks s1.2 cs
      (s1.1 ++ s2.1, s2.2)

/-- The events after the read loop ends (lines 810-849): the empty-stream
placeholder block with its diagnostic marker, or the close of a dangling
block (with a buffered thinking signature flushed first). -/
def tailEvents (st : StreamState) : List SSEEvent :=
  if st.hasStart = false then
    [SSEEvent.message_start st.inTok,
     SSEEvent.content_block_start 0 .text,
     SSEEvent.content_block_delta 0 (.text_delta "[No response received from API]"),
     SSEEvent.content_block_stop 0]
  else
    match st.cur with
    | some k =>
        (if k = .thinking ∧ st.curSig ≠ "" then
          [SSEEvent.content_block_delta st.blockIndex (.signature_delta st.curSig)]
        else []) ++ [SSEEvent.content_block_stop st.blockIndex]
    | none => []

/-- `streamSSEResponse` (lines 626-859): the chunk loop, the tail events, and
the final `message_delta` (carrying the final stop reason and output token
count) followed by `message_stop`. -/
def streamSSEResponse (chunks : List GChunk) : List SSEEvent :=
  let s := processChunks initStream chunks
  s.1 ++ tailEvents s.2
    ++ [SSEEvent.message_delta s.2.stopReason s.2.outTok, SSEEvent.message_stop]

/-- States of the checker for the event grammar
`message_start (content_block_start delta* content_block_stop)* message_delta message_stop`. -/
inductive GState where
  | expectStart | betweenBlocks | inBlock | afterMsgDelta | accepted
deriving DecidableEq, Repr

def stepGrammar : GState → SSEEvent → Option GState
  | .expectStart, .message_start _ => some .betweenBlocks
  | .betweenBlocks, .content_block_start _ _ => some .inBlock
  | .betweenBlocks, .message_delta _ _ => some .afterMsgDelta
  | .inBlock, .content_block_delta _ _ => some .inBlock
  | .inBlock, .content_block_stop _ => some .betweenBlocks
  | .afterMsgDelta, .message_stop => some .accepted
  | _, _ => none

def runGrammar : GState → List SSEEvent → Option GState
  | s, [] => some s
  | s, e :: es =>
      match stepGrammar s e with
      | some s' => runGrammar s' es
      | none => none

/-- An event list matches the grammar iff the checker accepts it. -/
def grammarOk (evs : List SSEEvent) : Bool :=
  decide (runGrammar .expectStart evs = some .accepted)

/-- Grammar state corresponding to a streamer state. -/
def gstateOf (st : StreamState) : GState :=
  if st.hasStart = false then .expectStart
  else
    match st.cur with
    | none => .betweenBlocks
    | some _ => .inBlock

lemma runGrammar_append (s : GState) (e1 e2 : List SSEEvent) :
    runGrammar s (e1 ++ e2)
      = (match runGrammar s e1 with
         | some s' => runGrammar s' e2
         | none => none) := by
  induction e1 generalizing s with
  | nil => simp [runGrammar]
  | cons e es ih =>
      simp only [List.cons_append, runGrammar]
      cases stepGrammar s e with
      | some s' => exact ih s'
      | none => rfl

lemma processPart_grammar (st : StreamState) (p : GPart) (hs : st.hasStart = true) :
    runGrammar (gstateOf st) (processPart st p).1 = some (gstateOf (processPart st p).2)
    ∧ (processPart st p).2.hasStart = true := by
  by_cases hth : p.thought = true
  · by_cases hcur : st.cur = some BlockKind.thinking
    · by_cases hsig : (p.thoughtSignature.getD "" ≠ "" ∧
          50 ≤ (p.thoughtSignature.getD "").length)
      · simp [processPart, hth, hcur, hsig, gstateOf, runGrammar, stepGrammar, hs]
      · simp [processPart, hth, hcur, hsig, gstateOf, runGrammar, stepGrammar, hs]
    · rcases hc : st.cur with _ | k
      · by_cases hsig : (p.thoughtSignature.getD "" ≠ "" ∧
            50 ≤ (p.thoughtSignature.getD "").length) <;>
        simp [processPart, hth, hcur, hc, hsig, closeOpenBlock, gstateOf,
          runGrammar, stepGrammar, hs]
      · have hk : ¬(k = BlockKind.thinking) := by
          rintro rfl; exact hcur hc
        by_cases hsig : (p.thoughtSignature.getD "" ≠ "" ∧
            50 ≤ (p.thoughtSignature.getD "").length) <;>
        simp [processPart, hth, hcur, hc, hk, hsig, closeOpenBlock, gstateOf,
          runGrammar, stepGrammar, hs]
  · by_cases htx : p.text.isSome
    · by_cases hsp : (p.text.getD "").data.all isSpaceCh
      · simp [processPart, hth, htx, hsp, gstateOf, runGrammar, hs]
      · by_cases hcur : st.cur = some BlockKind.text
        · simp [processPart, hth, htx, hsp, hcur, gstateOf, runGrammar, stepGrammar, hs]
        · rcases hc : st.cur with _ | k
          · simp [processPart, hth, htx, hsp, hcur, hc, closeOpenBlock, flushSig,
              gstateOf, runGrammar, stepGrammar, hs]
          · have hkt : ¬(k = BlockKind.text) := by rintro rfl; exact hcur hc
            by_cases hth2 : k = BlockKind.thinking <;>
            by_cases hcs : st.curSig = "" <;>
            simp [processPart, hth, htx, hsp, hcur, hc, hkt, hth2, hcs,
              closeOpenBlock, flushSig, gstateOf, runGrammar, stepGrammar, hs]
    · rcases hfc : p.functionCall with _ | args
      · simp [processPart, hth, htx, hfc, gstateOf, runGrammar, hs]
      · rcases hc : st.cur with _ | k
        · simp [processPart, hth, htx, hfc, hc, closeOpenBlock, flushSig,
            gstateOf, runGrammar, stepGrammar, hs]
        · by_cases hth2 : k = BlockKind.thinking <;>
          by_cases hcs : st.curSig = "" <;>
          simp [processPart, hth, htx, hfc, hc, hth2, hcs, closeOpenBlock,
            flushSig, gstateOf, runGrammar, stepGrammar, hs]

lemma processParts_grammar (ps : List GPart) : ∀ st : StreamState,
    st.hasStart = true →
    runGrammar (gstateOf st) (processParts st ps).1
      = some (gstateOf (processParts st ps).2)
    ∧ (processParts st ps).2.hasStart = true := by
  induction ps with
  | nil => intro st hs; exact ⟨rfl, hs⟩
  | cons p ps ih =>
      intro st hs
      have h1 := processPart_grammar st p hs
      have h2 := ih (processPart st p).2 h1.2
      constructor
      · show runGrammar (gstateOf st)
            ((processPart st p).1 ++ (processParts (processPart st p).2 ps).1)
          = some (gstateOf (processParts (processPart st p).2 ps).2)
        rw [runGrammar_append, h1.1]
        exact h2.1
      · exact h2.2

lemma usageUpdate_hasStart (st : StreamState) (c : GChunk) :
    (usageUpdate st c).hasStart = st.hasStart := by
  unfold usageUpdate; cases c.usage <;> rfl

lemma usageUpdate_cur (st : StreamState) (c : GChunk) :
    (usageUpdate st c).cur = st.cur := by
  unfold usageUpdate; cases c.usage <;> rfl

lemma finishUpdate_hasStart (st : StreamState) (fr : Option String) :
    (finishUpdate st fr).hasStart = st.hasStart := by
  unfold finishUpdate
  cases fr with
  | none => rfl
  | some f =>
      by_cases h1 : f = "" <;> by_cases h2 : f = "MAX_TOKENS" <;>
        by_cases h3 : f = "STOP" <;> simp [h1, h2, h3]

lemma finishUpdate_cur (st : StreamState) (fr : Option String) :
    (finishUpdate st fr).cur = st.cur := by
  unfold finishUpdate
  cases fr with
  | none => rfl
  | some f =>
      by_cases h1 : f = "" <;> by_cases h2 : f = "MAX_TOKENS" <;>
        by_cases h3 : f = "STOP" <;> simp [h1, h2, h3]

lemma gstateOf_finishUpdate (st : StreamState) (fr : Option String) :
    gstateOf (finishUpdate st fr) = gstateOf st := by
  unfold gstateOf
  rw [finishUpdate_hasStart, finishUpdate_cur]

lemma processChunk_grammar (st : StreamState) (c : GChunk)
    (hinv : st.hasStart = false → st.cur = none) :
    runGrammar (gstateOf st) (processChunk st c).1
      = some (gstateOf (processChunk st c).2)
    ∧ ((processChunk st c).2.hasStart = false → (processChunk st c).2.cur = none) := by
  have hu1 := usageUpdate_hasStart st c
  have hu2 := usageUpdate_cur st c
  have hg1 : gstateOf (usageUpdate st c) = gstateOf st := by
    unfold gstateOf; rw [hu1, hu2]
  have hchunk : processChunk st c
      = ((startGate (usageUpdate st c)
            ((c.candidates.head?).getD ⟨[], none⟩).parts.length).1
          ++ (processParts (startGate (usageUpdate st c)
              ((c.candidates.head?).getD ⟨[], none⟩).parts.length).2
              ((c.candidates.head?).getD ⟨[], none⟩).parts).1,
         finishUpdate (processParts (startGate (usageUpdate st c)
              ((c.candidates.head?).getD ⟨[], none⟩).parts.length).2
              ((c.candidates.head?).getD ⟨[], none⟩).parts).2
           ((c.candidates.head?).getD ⟨[], none⟩).finishReason) := rfl
  by_cases hstart : st.hasStart = true
  · have hsg : startGate (usageUpdate st c)
        ((c.candidates.head?).getD ⟨[], none⟩).parts.length
        = ([], usageUpdate st c) := by
      unfold startGate
      rw [hu1]
      simp [hstart]
    have hpp := processParts_grammar ((c.candidates.head?).getD ⟨[], none⟩).parts
      (usageUpdate st c) (by rw [hu1]; exact hstart)
    rw [hchunk, hsg]
    constructor
    · show runGrammar (gstateOf st)
          ([] ++ (processParts (usageUpdate st c)
            ((c.candidates.head?).getD ⟨[], none⟩).parts).1) = _
      rw [List.nil_append, ← hg1, hpp.1, gstateOf_finishUpdate]
    · intro hf
      rw [finishUpdate_hasStart] at hf
      rw [hpp.2] at hf
      simp at hf
  · have hs0 : st.hasStart = false := by
      cases hb : st.hasStart
      · rfl
      · exact absurd hb hstart
    have hc0 : st.cur = none := hinv hs0
    by_cases hn : ((c.candidates.head?).getD ⟨[], none⟩).parts.length > 0
    · have hsg : startGate (usageUpdate st c)
          ((c.candidates.head?).getD ⟨[], none⟩).parts.length
          = ([SSEEvent.message_start (usageUpdate st c).inTok],
             setStart (usageUpdate st c)) := by
        unfold startGate
        rw [hu1]
        simp [hs0, hn]
      have hpp := processParts_grammar ((c.candidates.head?).getD ⟨[], none⟩).parts
        (setStart (usageUpdate st c)) rfl
      have hgst : gstateOf st = .expectStart := by
        unfold gstateOf; rw [hs0]; rfl
      have hgst2 : gstateOf (setStart (usageUpdate st c)) = .betweenBlocks := by
        unfold gstateOf
        have hsc : (setStart (usageUpdate st c)).cur = st.cur := hu2
        rw [hsc, hc0]
        rfl
      rw [hchunk, hsg]
      constructor
      · show runGrammar (gstateOf st)
            ([SSEEvent.message_start (usageUpdate st c).inTok]
              ++ (processParts (setStart (usageUpdate st c))
                  ((c.candidates.head?).getD ⟨[], none⟩).parts).1) = _
        rw [runGrammar_append]
        have hone : runGrammar (gstateOf st)
            [SSEEvent.message_start (usageUpdate st c).inTok]
            = some .betweenBlocks := by
          rw [hgst]; rfl
        rw [hone]
        show runGrammar GState.betweenBlocks
            (processParts (setStart (usageUpdate st c))
              ((c.candidates.head?).getD ⟨[], none⟩).parts).1 = _
        rw [← hgst2, hpp.1, gstateOf_finishUpdate]
      · intro hf
        rw [finishUpdate_hasStart, hpp.2] at hf
        simp at hf
    · have hsg : startGate (usageUpdate st c)
          ((c.candidates.head?).getD ⟨[], none⟩).parts.length
          = ([], usageUpdate st c) := by
        unfold startGate
        simp [hn]
      have hparts : ((c.candidates.head?).getD ⟨[], none⟩).parts = [] := by
        cases hl : ((c.candidates.head?).getD ⟨[], none⟩).parts with
        | nil => rfl
        | cons a b => rw [hl] at hn; simp at hn
      rw [hchunk, hsg, hparts]
      constructor
      · show runGrammar (gstateOf st) ([] ++ (processParts (usageUpdate st c) []).1)
            = some (gstateOf (finishUpdate (processParts (usageUpdate st c) []).2
              ((c.candidates.head?).getD ⟨[], none⟩).finishReason))
        show runGrammar (gstateOf st) [] = some (gstateOf (finishUpdate (usageUpdate st c)
              ((c.candidates.head?).getD ⟨[], none⟩).finishReason))
        rw [gstateOf_finishUpdate, hg1]
        rfl
      · intro hf
        show (finishUpdate (usageUpdate st c)
            ((c.candidates.head?).getD ⟨[], none⟩).finishReason).cur = none
        rw [finishUpdate_cur, hu2]
        exact hinv hs0

lemma processChunks_grammar (cs : List GChunk) : ∀ st : StreamState,
    (st.hasStart = false → st.cur = none) →
    runGrammar (gstateOf st) (processChunks st cs).1
      = some (gstateOf (processChunks st cs).2)
    ∧ ((processChunks st cs).2.hasStart = false → (processChunks st cs).2.cur = none) := by
  induction cs with
  | nil => intro st hinv; exact ⟨rfl, hinv⟩
  | cons c cs ih =>
      intro st hinv
      have h1 := processChunk_grammar st c hinv
      have h2 := ih (processChunk st c).2 h1.2
      constructor
      · show runGrammar (gstateOf st)
            ((processChunk st c).1 ++ (processChunks (processChunk st c).2 cs).1)
          = some (gstateOf (processChunks (processChunk st c).2 cs).2)
        rw [runGrammar_append, h1.1]
        exact h2.1
      · exact h2.2

lemma processChunk_empty (st : StreamState) (c : GChunk)
    (hp : ((c.candidates.head?).getD ⟨[], none⟩).parts = []) :
    (processChunk st c).1 = []
    ∧ (processChunk st c).2.hasStart = st.hasStart
    ∧ (processChunk st c).2.cur = st.cur := by
  refine ⟨?_, ?_, ?_⟩ <;>
  simp [processChunk, hp, startGate, processParts, finishUpdate_hasStart,
    finishUpdate_cur, usageUpdate_hasStart, usageUpdate_cur]

lemma processChunks_empty (cs : List GChunk)
    (hall : ∀ c ∈ cs, ((c.candidates.head?).getD ⟨[], none⟩).parts = []) :
    ∀ st : StreamState, (processChunks st cs).1 = []
      ∧ (processChunks st cs).2.hasStart = st.hasStart
      ∧ (processChunks st cs).2.cur = st.cur := by
  induction cs with
  | nil => intro st; exact ⟨rfl, rfl, rfl⟩
  | cons c cs ih =>
      intro st
      have h1 := processChunk_empty st c (hall c (List.mem_cons_self c cs))
      have h2 := ih (fun x hx => hall x (List.mem_cons_of_mem c hx)) (processChunk st c).2
      refine ⟨?_, ?_, ?_⟩
      · show (processChunk st c).1 ++ (processChunks (processChunk st c).2 cs).1 = []
        rw [h1.1, h2.1]
        rfl
      · show (processChunks (processChunk st c).2 cs).2.hasStart = st.hasStart
        rw [h2.2.1, h1.2.1]
      · show (processChunks (processChunk st c).2 cs).2.cur = st.cur
        rw [h2.2.2, h1.2.2]

/-- C7: for every upstream SSE stream (modelled as the list of decoded `data:`
objects — other lines produce no event), the emitted event sequence matches
the grammar `message_start (content_block_start delta* content_block_stop)*
message_delta message_stop`; the sequence always ends with a `message_delta`
carrying the final stop reason and output token count followed by
`message_stop`; and a stream whose chunks deliver no content parts produces
the placeholder text block with the `[No response received from API]`
diagnostic marker rather than a silent empty response. -/
theorem streamSSE_event_grammar :
    (∀ chunks : List GChunk, grammarOk (streamSSEResponse chunks) = true) ∧
    (∀ chunks : List GChunk, ∃ pre,
        streamSSEResponse chunks
          = pre ++ [SSEEvent.message_delta
              (processChunks initStream chunks).2.stopReason
              (processChunks initStream chunks).2.outTok,
             SSEEvent.message_stop]) ∧
    (∀ chunks : List GChunk,
      (∀ c ∈ chunks, ((c.candidates.head?).getD ⟨[], none⟩).parts = []) →
      ∃ it sr ot, streamSSEResponse chunks
        = [SSEEvent.message_start it, SSEEvent.content_block_start 0 .text,
           SSEEvent.content_block_delta 0
             (.text_delta "[No response received from API]"),
           SSEEvent.content_block_stop 0,
           SSEEvent.message_delta sr ot, SSEEvent.message_stop]) := by
  refine ⟨?_, ?_, ?_⟩
  · intro chunks
    have h := processChunks_grammar chunks initStream (fun _ => rfl)
    unfold grammarOk streamSSEResponse
    rw [decide_eq_true_iff]
    rw [List.append_assoc, runGrammar_append]
    have h0 : gstateOf initStream = .expectStart := rfl
    rw [h0] at h
    rw [h.1]
    show runGrammar (gstateOf (processChunks initStream chunks).2)
        (tailEvents (processChunks initStream chunks).2 ++ _) = some .accepted
    generalize hst : (processChunks initStream chunks).2 = st at h ⊢
    cases hb : st.hasStart with
    | false =>
        have hc : st.cur = none := h.2 hb
        simp [gstateOf, tailEvents, hb, runGrammar, stepGrammar]
    | true =>
        cases hc : st.cur with
        | none => simp [gstateOf, tailEvents, hb, hc, runGrammar, stepGrammar]
        | some k =>
            by_cases hsig : (k = BlockKind.thinking ∧ st.curSig ≠ "") <;>
            simp [gstateOf, tailEvents, hb, hc, hsig, runGrammar, stepGrammar]
  · intro chunks
    refine ⟨(processChunks initStream chunks).1
      ++ tailEvents (processChunks initStream chunks).2, ?_⟩
    unfold streamSSEResponse
    rw [List.append_assoc]
  · intro chunks hall
    have he := processChunks_empty chunks hall initStream
    refine ⟨(processChunks initStream chunks).2.inTok,
            (processChunks initStream chunks).2.stopReason,
            (processChunks initStream chunks).2.outTok, ?_⟩
    show (processChunks initStream chunks).1
        ++ tailEvents (processChunks initStream chunks).2
        ++ [SSEEvent.message_delta (processChunks initStream chunks).2.stopReason
              (processChunks initStream chunks).2.outTok,
            SSEEvent.message_stop] = _
    rw [he.1]
    have hb : (processChunks initStream chunks).2.hasStart = false := he.2.1
    simp [tailEvents, hb]

/-- Witness for C7: the grammar holds on a concrete one-chunk stream, and the
empty stream yields exactly the placeholder sequence. -/
theorem streamSSE_event_grammar_witness :
    grammarOk (streamSSEResponse
      [⟨some ⟨some 3, some 4⟩, [⟨[⟨false, some "hi", none, none⟩], some "STOP"⟩]⟩])
      = true ∧
    (∃ it sr ot, streamSSEResponse ([] : List GChunk)
      = [SSEEvent.message_start it, SSEEvent.content_block_start 0 .text,
         SSEEvent.content_block_delta 0
           (.text_delta "[No response received from API]"),
         SSEEvent.content_block_stop 0,
         SSEEvent.message_delta sr ot, SSEEvent.message_stop]) :=
  ⟨streamSSE_event_grammar.1
     [⟨some ⟨some 3, some 4⟩, [⟨[⟨false, some "hi", none, none⟩], some "STOP"⟩]⟩],
   streamSSE_event_grammar.2.2 [] (by intro c hc; exact absurd hc (List.not_mem_nil c))⟩
